import Mathlib

/-!
Verification development for the NOVA fulfillment / order-routing engine
(`backend/services/fulfillment_service.py`, `backend/api/pos_api.py`,
`backend/api/admin_fulfillment_api.py`, and the data model in
`backend/models/order.py`, `backend/models/pos.py`,
`backend/models/product.py`).

The Python code is shallowly embedded: each database table becomes a list of
records, each service function becomes a pure function from a database state
to a result paired with the next database state.  Python integers are `Int`
(they are unbounded, and the code manipulates them with explicit clamping).
Nullable columns are `Option`.  The Haversine distance computation is modelled
over the reals in `calculate_distance`; the routing layer is kept polymorphic
in the coordinate type `C` and the distance value type `D` (a linear order
with a top element standing for `float('inf')`), so that the routing logic
stays executable on concrete test states; `calcDist` abstracts
`FulfillmentService.calculate_distance`, whose real-number model is proved
separately.
-/

namespace NOVA

/-- The `latitude` / `longitude` entries of an order's `shipping_address`
JSON payload (`Order.shipping_address` in `models/order.py`); every other
address field is irrelevant to routing.  Both entries are nullable. -/
structure ShipAddr (C : Type) where
  latitude : Option C
  longitude : Option C
  deriving DecidableEq

/-- One row of `order_items` (`models/order.py`): `product_id` and
`variation_id` are nullable columns, `quantity` is a Python int. -/
structure OrderItem where
  product_id : Option Nat
  variation_id : Option Nat
  quantity : Int
  deriving DecidableEq

/-- The routing-relevant columns of one `orders` row (`models/order.py`). -/
structure Order (C : Type) where
  id : Nat
  shipping_address : Option (ShipAddr C)
  items : List OrderItem
  fulfillment_source : String
  assigned_seller_id : Option Nat
  assignment_status : Option String
  assignment_attempts : Nat
  assignment_expiry : Option Int
  deriving DecidableEq

/-- One row of `pos_seller_profiles` (`models/pos.py`). -/
structure POSSellerProfile (C : Type) where
  id : Nat
  business_name : String
  latitude : Option C
  longitude : Option C
  is_active : Bool
  auto_accept_orders : Bool
  deriving DecidableEq

/-- One row of `pos_inventory` (`models/pos.py`): key
`(seller_id, product_id, variation_id)` with stock counters `quantity`
(on-hand) and `reserved_quantity`. -/
structure POSInventory where
  seller_id : Nat
  product_id : Nat
  variation_id : Option Nat
  quantity : Int
  reserved_quantity : Int
  deriving DecidableEq

/-- The stock-relevant columns of one `products` row (`models/product.py`). -/
structure Product where
  id : Nat
  title : String
  manage_stock : Bool
  stock_quantity : Int
  stock_status : String
  deriving DecidableEq

/-- The stock-relevant columns of one `product_variations` row. -/
structure ProductVariation where
  id : Nat
  manage_stock : Bool
  stock_quantity : Int
  stock_status : String
  deriving DecidableEq

/-- The database state seen by the fulfillment engine: one list per table,
in row order (SQLAlchemy `.first()` picks the first matching row). -/
structure DB (C : Type) where
  orders : List (Order C)
  sellers : List (POSSellerProfile C)
  inventory : List POSInventory
  products : List Product
  variations : List ProductVariation
  deriving DecidableEq

/-- `Order.query.get(order_id)`: first row with the given primary key. -/
def findOrder {C : Type} (db : DB C) (oid : Nat) : Option (Order C) :=
  db.orders.find? (fun o => o.id = oid)

/-- Replace the order row(s) carrying `o'.id` by `o'` (the ORM mutates the
row in place; with unique primary keys exactly one row changes). -/
def setOrder {C : Type} (db : DB C) (o' : Order C) : DB C :=
  { db with orders := db.orders.map (fun o => if o.id = o'.id then o' else o) }

/-- Does inventory row `inv` match the `(seller_id, product_id, variation_id)`
filter used by `POSInventory.query.filter_by` for an order item?  A `NULL`
`item.product_id` matches no row (the column is `NOT NULL` in
`pos_inventory`). -/
def invMatches (sid : Nat) (it : OrderItem) (inv : POSInventory) : Prop :=
  inv.seller_id = sid ∧ some inv.product_id = it.product_id ∧
    inv.variation_id = it.variation_id

instance (sid : Nat) (it : OrderItem) (inv : POSInventory) :
    Decidable (invMatches sid it inv) := by
  unfold invMatches; infer_instance

/-- `POSInventory.query.filter_by(...).first()` for an order item. -/
def findInv (invs : List POSInventory) (sid : Nat) (it : OrderItem) :
    Option POSInventory :=
  invs.find? (fun inv => decide (invMatches sid it inv))

/-- Apply `f` to the first inventory row matching the item's key, leaving all
other rows unchanged (the ORM mutation of the row returned by `.first()`). -/
def updateInv (invs : List POSInventory) (sid : Nat) (it : OrderItem)
    (f : POSInventory → POSInventory) : List POSInventory :=
  match invs with
  | [] => []
  | inv :: rest =>
    if invMatches sid it inv then f inv :: rest
    else inv :: updateInv rest sid it f

/-- A per-item inventory loop: for each order item in turn, apply `g it` to
the first matching inventory row. -/
def foldUpdate (invs : List POSInventory) (sid : Nat)
    (g : OrderItem → POSInventory → POSInventory)
    (items : List OrderItem) : List POSInventory :=
  items.foldl (fun acc it => updateInv acc sid it (g it)) invs

/-- The row mutation `inventory.reserved_quantity += item.quantity`
(`assign_order` line 165). -/
def resStep (it : OrderItem) (inv : POSInventory) : POSInventory :=
  { inv with reserved_quantity := inv.reserved_quantity + it.quantity }

/-- The row mutation `inventory.reserved_quantity -= item.quantity`, clamped
at 0 (`reject_order`, `pos_api.py` lines 93-94). -/
def relStep (it : OrderItem) (inv : POSInventory) : POSInventory :=
  { inv with reserved_quantity :=
      if inv.reserved_quantity - it.quantity < 0 then 0
      else inv.reserved_quantity - it.quantity }

/-- A row mutation that leaves the `(seller_id, product_id, variation_id)`
key unchanged. -/
def keepsKey (f : POSInventory → POSInventory) : Prop :=
  ∀ inv, (f inv).seller_id = inv.seller_id ∧ (f inv).product_id = inv.product_id ∧
    (f inv).variation_id = inv.variation_id

/-- The per-line stock reservation loop of `FulfillmentService.assign_order`
(lines 158-165): for each order item, if a matching inventory row exists,
`reserved_quantity += item.quantity`. -/
def reserveItems (invs : List POSInventory) (sid : Nat)
    (items : List OrderItem) : List POSInventory :=
  foldUpdate invs sid resStep items

/-- The stock-release loop of `reject_order` (`pos_api.py` lines 86-94):
for each order item, if a matching inventory row exists,
`reserved_quantity -= item.quantity`, clamped at 0. -/
def releaseItems (invs : List POSInventory) (sid : Nat)
    (items : List OrderItem) : List POSInventory :=
  foldUpdate invs sid relStep items

/-- Spec §4.2: `available(seller, product, variation) = onHand − reserved`,
`0` when the inventory record is missing. -/
def availableSpec (invs : List POSInventory) (sid : Nat) (it : OrderItem) : Int :=
  match findInv invs sid it with
  | some inv => inv.quantity - inv.reserved_quantity
  | none => 0

/-- Degrees-to-radians conversion (`math.radians`). -/
noncomputable def radians (x : ℝ) : ℝ := x * (Real.pi / 180)

/-- The Haversine computation of `calculate_distance` (lines 26-34) on four
present coordinates, over the reals. -/
noncomputable def haversine (lat1 lon1 lat2 lon2 : ℝ) : ℝ :=
  let rlo1 := radians lon1
  let rla1 := radians lat1
  let rlo2 := radians lon2
  let rla2 := radians lat2
  let dlon := rlo2 - rlo1
  let dlat := rla2 - rla1
  let a := Real.sin (dlat / 2) ^ 2 +
    Real.cos rla1 * Real.cos rla2 * Real.sin (dlon / 2) ^ 2
  let c := 2 * Real.arcsin (Real.sqrt a)
  c * 6371

/-- `FulfillmentService.calculate_distance`: the Haversine great-circle
distance in kilometers, modelled over the reals; `float('inf')` becomes the
top element of `WithTop ℝ`, returned whenever any of the four coordinates is
missing. -/
noncomputable def calculate_distance (lat1 lon1 lat2 lon2 : Option ℝ) :
    WithTop ℝ :=
  match lat1, lon1, lat2, lon2 with
  | some la1, some lo1, some la2, some lo2 =>
    ((haversine la1 lo1 la2 lo2 : ℝ) : WithTop ℝ)
  | _, _, _, _ => ⊤

section Routing

/-! The routing layer is polymorphic in the coordinate type `C` and the
distance type `D`.  In the Python code `D` is the floats with `float('inf')`
(`⊤`) and `calcDist` is `FulfillmentService.calculate_distance` (modelled over
`ℝ` above); keeping them as parameters makes every routing function
executable, so concrete runs can be checked by `decide`.  `geocode` stands for
the external `GeocodingService.get_coordinates`, which yields a coordinate
pair on success and nothing on failure; `chinaLat`/`chinaLon` are the fixed
hub coordinates `CHINA_LAT`/`CHINA_LON`. -/

variable {C : Type} {D : Type} [LinearOrder D] [OrderTop D]
variable (calcDist : Option C → Option C → Option C → Option C → D)
variable (geocode : ShipAddr C → Option (C × C))
variable (chinaLat chinaLon : C)

/-- The per-seller stock check of `find_nearest_eligible_sellers` (lines
77-93): the seller covers every order line, i.e. for each item a matching
inventory row exists with `quantity - reserved_quantity >= item.quantity`. -/
def has_stock (db : DB C) (o : Order C) (s : POSSellerProfile C) : Bool :=
  o.items.all fun it =>
    match findInv db.inventory s.id it with
    | some inv => decide (it.quantity ≤ inv.quantity - inv.reserved_quantity)
    | none => false

/-- The sort order of `eligible_sellers.sort(key=lambda x: (x[1], x[0].id))`:
ascending lexicographically by (distance, seller id). -/
def candLE (a b : POSSellerProfile C × D) : Prop :=
  a.2 < b.2 ∨ (a.2 = b.2 ∧ a.1.id ≤ b.1.id)

instance instDecCandLE : DecidableRel (candLE (C := C) (D := D)) :=
  fun a b => by unfold candLE; infer_instance

/-- `FulfillmentService.find_nearest_eligible_sellers`.  Returns the
(possibly geocode-updated) database together with the ranked candidate list.
Python's `list.sort` is stable; seller ids are a primary key, so the sort
keys `(distance, id)` are pairwise distinct and insertion sort computes the
same list. -/
def find_nearest_eligible_sellers (db : DB C) (oid : Nat) (limit : Nat := 5) :
    DB C × List (POSSellerProfile C × D) :=
  match findOrder db oid with
  | none => (db, [])
  | some o =>
    match o.shipping_address with
    | none => (db, [])
    | some addr =>
      let resolved : Option C × Option C × DB C :=
        match addr.latitude, addr.longitude with
        | some la, some lo => (some la, some lo, db)
        | _, _ =>
          match geocode addr with
          | some (la, lo) =>
            let addr' := { addr with latitude := some la, longitude := some lo }
            (some la, some lo, setOrder db { o with shipping_address := some addr' })
          | none => (addr.latitude, addr.longitude, db)
      match resolved with
      | (clat, clon, db') =>
        let active := db'.sellers.filter (·.is_active)
        let eligible := (active.filter (fun s => has_stock db' o s)).map
          (fun s =>
            (s, match clat, clon with
                | some la, some lo =>
                  calcDist (some la) (some lo) s.latitude s.longitude
                | _, _ => (⊤ : D)))
        (db', (List.insertionSort candLE eligible).take limit)

/-- Follows the spec's words (§4.3, §4.2, glossary): the candidate ranker
returns the active sellers whose available quantity (`onHand − reserved`,
taken as 0 when the inventory record is missing) covers the required
quantity on every line, as `(seller, distance)` pairs sorted ascending by
`(distance, sellerId)`.  Defined for comparison with the code's
`find_nearest_eligible_sellers`. -/
def rankerSpec (db : DB C) (o : Order C) (cl co : C) :
    List (POSSellerProfile C × D) :=
  List.insertionSort candLE
    (((db.sellers.filter (fun s => s.is_active)).filter
        (fun s => o.items.all
          (fun it => decide (it.quantity ≤ availableSpec db.inventory s.id it)))).map
      (fun s => (s, calcDist (some cl) (some co) s.latitude s.longitude)))

/-- Apply `f` to the first variation row with primary key `vid`
(`ProductVariation.query.get`). -/
def updateVar (vars : List ProductVariation) (vid : Nat)
    (f : ProductVariation → ProductVariation) : List ProductVariation :=
  match vars with
  | [] => []
  | v :: rest => if v.id = vid then f v :: rest else v :: updateVar rest vid f

/-- Apply `f` to the first product row with primary key `pid`
(`Product.query.get`). -/
def updateProd (prods : List Product) (pid : Nat)
    (f : Product → Product) : List Product :=
  match prods with
  | [] => []
  | p :: rest => if p.id = pid then f p :: rest else p :: updateProd rest pid f

/-- The variation-stock deduction of `fallback_to_admin` (lines 203-211). -/
def deductVar (q : Int) (v : ProductVariation) : ProductVariation :=
  if v.manage_stock then
    if v.stock_quantity - q ≤ 0 then
      { v with stock_quantity := 0, stock_status := "out_of_stock" }
    else { v with stock_quantity := v.stock_quantity - q }
  else v

/-- The global product-stock deduction of `fallback_to_admin`
(lines 213-220). -/
def deductProd (q : Int) (p : Product) : Product :=
  if p.manage_stock then
    if p.stock_quantity - q ≤ 0 then
      { p with stock_quantity := 0, stock_status := "out_of_stock" }
    else { p with stock_quantity := p.stock_quantity - q }
  else p

/-- One iteration of the stock-deduction loop of `fallback_to_admin`
(lines 199-220): deduct variation stock (when the line has a variation),
then global product stock. -/
def adminDeductStep (acc : DB C) (it : OrderItem) : DB C :=
  let acc1 :=
    match it.variation_id with
    | some vid =>
      { acc with variations := updateVar acc.variations vid (deductVar it.quantity) }
    | none => acc
  match it.product_id with
  | some pid =>
    { acc1 with products := updateProd acc1.products pid (deductProd it.quantity) }
  | none => acc1

/-- The stock-deduction loop of `fallback_to_admin` (lines 198-220), clamping
at zero and flipping `stock_status`.  The out-of-stock alert list is only fed
to a `TODO` and is not modelled. -/
def commitAdminDeduction (db : DB C) (items : List OrderItem) : DB C :=
  items.foldl adminDeductStep db

/-- The order-field mutation of `fallback_to_admin` (lines 193-195): admin
source, no seller, status `assigned`. -/
def adminOrder (o : Order C) : Order C :=
  { o with
    fulfillment_source := "admin"
    assigned_seller_id := none
    assignment_status := some "assigned" }

/-- `FulfillmentService.fallback_to_admin`: point the order at admin direct
fulfillment and deduct global stock. -/
def fallback_to_admin (db : DB C) (o : Order C) : (Bool × String) × DB C :=
  ((true, "Assigned to Admin Direct Fulfillment"),
    commitAdminDeduction (setOrder db (adminOrder o)) o.items)

/-- The China-vs-seller comparison of `assign_order` (lines 143-154): with
both customer coordinates present, is the hub strictly closer than the
proposed seller?  (`best2` is the proposed seller's distance.) -/
def chinaCloser (o1 : Order C) (best2 : D) : Bool :=
  match (match o1.shipping_address with | some a => a.latitude | none => none),
        (match o1.shipping_address with | some a => a.longitude | none => none) with
  | some la, some lo =>
    decide (calcDist (some la) (some lo) (some chinaLat) (some chinaLon) < best2)
  | _, _ => false

/-- The order-field mutation of a successful assignment (`assign_order`
lines 167-177): POS source, chosen seller, status `assigned` (or `accepted`
under auto-accept), incremented attempt counter, 24-hour expiry window. -/
def assignedOrder (o1 : Order C) (s : POSSellerProfile C) (now : Int) :
    Order C :=
  { o1 with
    fulfillment_source := "pos"
    assigned_seller_id := some s.id
    assignment_status := some (if s.auto_accept_orders then "accepted" else "assigned")
    assignment_attempts := o1.assignment_attempts + 1
    assignment_expiry := some (now + 24) }

/-- `FulfillmentService.assign_order`.  `now` is the current time
(`datetime.utcnow()`), in hours, so the 24-hour window is `now + 24`. -/
def assign_order (db : DB C) (oid : Nat) (now : Int) : (Bool × String) × DB C :=
  match findOrder db oid with
  | none => ((false, "Order not found"), db)
  | some o =>
    if o.assignment_status = some "accepted" ∨
        o.assignment_status = some "shipped" then
      ((false, "Order already accepted or shipped"), db)
    else
      let res := find_nearest_eligible_sellers calcDist geocode db oid 20
      let db1 := res.1
      let candidates := res.2
      let o1 := (findOrder db1 oid).getD o
      if h : o1.assignment_attempts < candidates.length then
        let best := candidates.get ⟨o1.assignment_attempts, h⟩
        if chinaCloser calcDist chinaLat chinaLon o1 best.2 then
          fallback_to_admin db1 o1
        else
          ((true, "Assigned to " ++ best.1.business_name ++ " (Attempt " ++
              toString (o1.assignment_attempts + 1) ++ ")"),
            setOrder
              { db1 with inventory := reserveItems db1.inventory best.1.id o1.items }
              (assignedOrder o1 best.1 now))
      else
        fallback_to_admin db1 o1

/-- `accept_order` from `pos_api.py`, invoked by the seller whose POS profile
id is `pid`: a 404/400 response leaves the database unchanged. -/
def accept_order (db : DB C) (pid : Nat) (oid : Nat) : Bool × DB C :=
  match findOrder db oid with
  | none => (false, db)
  | some o =>
    if o.assigned_seller_id = some pid then
      if o.assignment_status = some "assigned" then
        (true, setOrder db { o with assignment_status := some "accepted" })
      else (false, db)
    else (false, db)

/-- `reject_order` from `pos_api.py`, invoked by the seller whose POS profile
id is `pid`: release the reservation, clear the assignment, commit, then
trigger reassignment through `assign_order`. -/
def reject_order (db : DB C) (pid : Nat) (oid : Nat) (now : Int) :
    Bool × DB C :=
  match findOrder db oid with
  | none => (false, db)
  | some o =>
    if o.assigned_seller_id = some pid then
      let db1 := { db with inventory := releaseItems db.inventory pid o.items }
      let db2 := setOrder db1
        { o with assigned_seller_id := none, assignment_status := some "rejected" }
      (true, (assign_order calcDist geocode chinaLat chinaLon db2 oid now).2)
    else (false, db)

/-- The `target == 'admin'` branch of `override_assignment` from
`admin_fulfillment_api.py`: force the order to admin fulfillment (the stock
release for a previously assigned seller is an unimplemented `pass`). -/
def override_to_admin (db : DB C) (oid : Nat) : Bool × DB C :=
  match findOrder db oid with
  | none => (false, db)
  | some o => (true, (fallback_to_admin db o).2)

/-- Does the sweeper's query `status = assigned AND assignmentExpiry < now`
select this order?  A `NULL` expiry is never `< now` in SQL. -/
def expiredNow (o : Order C) (now : Int) : Bool :=
  decide (o.assignment_status = some "assigned") &&
    (match o.assignment_expiry with
     | some t => decide (t < now)
     | none => false)

/-- Modelled from the spec: the repository has no ExpirySweeper — spec §2
notes the source core "omits the sweeper" and §4.6 describes it.  Per-order
step: "invokes the reject-equivalent path (release + reassign)" — release the
assigned seller's reservation, clear the assignment, re-enter routing via
`assign_order`, exactly as the reject endpoint does. -/
def sweepOne (now : Int) (db : DB C) (oid : Nat) : DB C :=
  match findOrder db oid with
  | none => db
  | some o =>
    match o.assigned_seller_id with
    | none => db
    | some sid =>
      let db1 := { db with inventory := releaseItems db.inventory sid o.items }
      let db2 := setOrder db1
        { o with assigned_seller_id := none, assignment_status := some "rejected" }
      (assign_order calcDist geocode chinaLat chinaLon db2 oid now).2

/-- Modelled from the spec: the periodic sweep body (spec §4.6) — query the
orders with `status = assigned AND assignmentExpiry < now` and handle each
independently with the reject-equivalent step `sweepOne`. -/
def expiry_sweep (db : DB C) (now : Int) : DB C :=
  ((db.orders.filter (fun o => expiredNow o now)).map (fun o => o.id)).foldl
    (sweepOne calcDist geocode chinaLat chinaLon now) db

end Routing

/-! ### Specification-side predicates -/

/-- Spec §3 / §8 inventory invariant: `0 ≤ reserved ≤ onHand` for every
inventory row. -/
def inventoryInv {C : Type} (db : DB C) : Prop :=
  ∀ inv ∈ db.inventory, 0 ≤ inv.reserved_quantity ∧
    inv.reserved_quantity ≤ inv.quantity

/-- Spec §3 order invariant exactly as claimed: `assignedSellerId` is
non-null iff `assignmentStatus ∈ {assigned, accepted}`. -/
def claimedSellerInv {C : Type} (o : Order C) : Prop :=
  o.assigned_seller_id.isSome = true ↔
    (o.assignment_status = some "assigned" ∨ o.assignment_status = some "accepted")

/-- The amended order invariant that the code actually maintains: the seller
is non-null iff the status is `assigned`/`accepted` **and** the order is not
admin-fulfilled (the admin fallback reuses status `assigned` with
`fulfillment_source = 'admin'` and a null seller). -/
def sellerStatusInv {C : Type} (o : Order C) : Prop :=
  o.assigned_seller_id.isSome = true ↔
    ((o.assignment_status = some "assigned" ∨ o.assignment_status = some "accepted") ∧
      o.fulfillment_source ≠ "admin")

/-- Two order lines address the same inventory record of a seller. -/
def sameKey (a b : OrderItem) : Prop :=
  a.product_id = b.product_id ∧ a.variation_id = b.variation_id

instance (a b : OrderItem) : Decidable (sameKey a b) := by
  unfold sameKey; infer_instance

/-- The order's lines address pairwise distinct inventory records and carry
nonnegative quantities (genuine order lines). -/
def itemsOK (items : List OrderItem) : Prop :=
  (∀ it ∈ items, 0 ≤ it.quantity) ∧
    (items.map (fun it => (it.product_id, it.variation_id))).Nodup

/-- Every order row of the database has well-formed lines. -/
def ordersItemsOK {C : Type} (db : DB C) : Prop :=
  ∀ o ∈ db.orders, itemsOK o.items

instance {C : Type} (db : DB C) : Decidable (inventoryInv db) := by
  unfold inventoryInv; infer_instance

instance {C : Type} (o : Order C) : Decidable (claimedSellerInv o) := by
  unfold claimedSellerInv; infer_instance

instance {C : Type} (o : Order C) : Decidable (sellerStatusInv o) := by
  unfold sellerStatusInv; infer_instance

instance (items : List OrderItem) : Decidable (itemsOK items) := by
  unfold itemsOK; infer_instance

instance {C : Type} (db : DB C) : Decidable (ordersItemsOK db) := by
  unfold ordersItemsOK; infer_instance

/-! ### Concrete test states (coordinate type `ℕ`, distance type `WithTop ℕ`) -/

/-- Distance values for concrete runs: naturals with an `∞` element, the
computable stand-in for the floats with `float('inf')`. -/
abbrev Dn := WithTop Nat

/-- A distance oracle that returns `∞` everywhere (never consulted in runs
whose customer coordinates are absent). -/
def noDist : Option Nat → Option Nat → Option Nat → Option Nat → Dn :=
  fun _ _ _ _ => ⊤

/-- A distance oracle for the hub-fallback witness: any distance to a point
at latitude 1 (the hub) is 0, every other distance is `∞`. -/
def hubDist : Option Nat → Option Nat → Option Nat → Option Nat → Dn :=
  fun _ _ la2 _ => if la2 = some 1 then (0 : Dn) else ⊤

/-- A geocoder that always fails. -/
def noGeo : ShipAddr Nat → Option (Nat × Nat) := fun _ => none

/-- A shipping address with no coordinates. -/
def addrNC : ShipAddr Nat := { latitude := none, longitude := none }

/-- A shipping address at (5, 5). -/
def addrC : ShipAddr Nat := { latitude := some 5, longitude := some 5 }

/-- An active seller without coordinates and without auto-accept. -/
def mkSeller (n : Nat) : POSSellerProfile Nat :=
  { id := n
    business_name := "S"
    latitude := none
    longitude := none
    is_active := true
    auto_accept_orders := false }

/-- An active seller at (100, 100). -/
def sellerFar : POSSellerProfile Nat :=
  { id := 1
    business_name := "S"
    latitude := some 100
    longitude := some 100
    is_active := true
    auto_accept_orders := false }

/-- An inventory row for SKU 1 at seller `sid`. -/
def mkInv (sid : Nat) (q r : Int) : POSInventory :=
  { seller_id := sid
    product_id := 1
    variation_id := none
    quantity := q
    reserved_quantity := r }

/-- An order line of `q` units of SKU 1. -/
def item1 (q : Int) : OrderItem :=
  { product_id := some 1
    variation_id := none
    quantity := q }

/-- Product 1, managed stock of 10. -/
def prod1 : Product :=
  { id := 1
    title := "P1"
    manage_stock := true
    stock_quantity := 10
    stock_status := "in_stock" }

/-- A fresh unassigned order (id 1) with the given address and lines. -/
def mkOrder (addr : Option (ShipAddr Nat)) (items : List OrderItem) :
    Order Nat :=
  { id := 1
    shipping_address := addr
    items := items
    fulfillment_source := "admin"
    assigned_seller_id := none
    assignment_status := none
    assignment_attempts := 0
    assignment_expiry := none }

/-- An order already accepted by seller 1 (one unit reserved for it). -/
def ordAccepted : Order Nat :=
  { id := 1
    shipping_address := some addrNC
    items := [item1 1]
    fulfillment_source := "pos"
    assigned_seller_id := some 1
    assignment_status := some "accepted"
    assignment_attempts := 1
    assignment_expiry := some 24 }

/-- An order assigned to seller 1 whose 24-hour window expired at time 10. -/
def ordExpired : Order Nat :=
  { id := 1
    shipping_address := some addrNC
    items := [item1 1]
    fulfillment_source := "pos"
    assigned_seller_id := some 1
    assignment_status := some "assigned"
    assignment_attempts := 1
    assignment_expiry := some 10 }

/-- A second, untouched fresh order with id 2. -/
def ordOther : Order Nat :=
  { id := 2
    shipping_address := some addrNC
    items := [item1 1]
    fulfillment_source := "admin"
    assigned_seller_id := none
    assignment_status := none
    assignment_attempts := 0
    assignment_expiry := none }

/-- Duplicate-line scenario: one seller with 3 on hand, an order with two
lines of 2 units of the same SKU. -/
def dbDup : DB Nat :=
  { orders := [mkOrder (some addrNC) [item1 2, item1 2]]
    sellers := [mkSeller 1]
    inventory := [mkInv 1 3 0]
    products := [prod1]
    variations := [] }

/-- Two eligible sellers, one fresh single-line order. -/
def dbTwo : DB Nat :=
  { orders := [mkOrder (some addrNC) [item1 1]]
    sellers := [mkSeller 1, mkSeller 2]
    inventory := [mkInv 1 5 0, mkInv 2 5 0]
    products := [prod1]
    variations := [] }

/-- No sellers at all: assignment can only fall back to admin. -/
def dbNoSellers : DB Nat :=
  { orders := [mkOrder (some addrNC) [item1 1]]
    sellers := []
    inventory := []
    products := [prod1]
    variations := [] }

/-- State holding `ordAccepted` and its reservation. -/
def dbAccepted : DB Nat :=
  { orders := [ordAccepted]
    sellers := [mkSeller 1]
    inventory := [mkInv 1 5 1]
    products := [prod1]
    variations := [] }

/-- Six active eligible sellers for the ranker-truncation counterexample. -/
def dbSix : DB Nat :=
  { orders := [mkOrder (some addrNC) [item1 1]]
    sellers := [mkSeller 1, mkSeller 2, mkSeller 3, mkSeller 4, mkSeller 5, mkSeller 6]
    inventory := [mkInv 1 5 0, mkInv 2 5 0, mkInv 3 5 0, mkInv 4 5 0, mkInv 5 5 0, mkInv 6 5 0]
    products := [prod1]
    variations := [] }

/-- Customer with coordinates, one far eligible seller: hub-fallback witness
state. -/
def dbHub : DB Nat :=
  { orders := [mkOrder (some addrC) [item1 1]]
    sellers := [sellerFar]
    inventory := [mkInv 1 5 0]
    products := [prod1]
    variations := [] }

/-- An order with no shipping address next to an eligible active seller. -/
def dbNoAddr : DB Nat :=
  { orders := [mkOrder none [item1 1]]
    sellers := [mkSeller 1]
    inventory := [mkInv 1 5 0]
    products := [prod1]
    variations := [] }

/-- An expired assigned order next to an untouched fresh order. -/
def dbExpired : DB Nat :=
  { orders := [ordExpired, ordOther]
    sellers := [mkSeller 1, mkSeller 2]
    inventory := [mkInv 1 5 1, mkInv 2 5 0]
    products := [prod1]
    variations := [] }

/-- A well-formed single-seller state used by the preservation witnesses. -/
def dbPlain : DB Nat :=
  { orders := [mkOrder (some addrNC) [item1 1]]
    sellers := [mkSeller 1]
    inventory := [mkInv 1 5 0]
    products := [prod1]
    variations := [] }

/-- Customer with coordinates for the ranker-refinement witness. -/
def dbCoords : DB Nat :=
  { orders := [mkOrder (some addrC) [item1 1]]
    sellers := [mkSeller 1]
    inventory := [mkInv 1 5 0]
    products := [prod1]
    variations := [] }

/-! ### Lemmas about row lookup and first-match update -/

theorem findOrder_some_id {C : Type} {db : DB C} {oid : Nat} {o : Order C}
    (h : findOrder db oid = some o) : o.id = oid := by
  have := List.find?_some h
  simpa using this

theorem findOrder_mem {C : Type} {db : DB C} {oid : Nat} {o : Order C}
    (h : findOrder db oid = some o) : o ∈ db.orders :=
  List.mem_of_find?_eq_some h

theorem setOrder_inventory {C : Type} (db : DB C) (o' : Order C) :
    (setOrder db o').inventory = db.inventory := rfl

theorem setOrder_sellers {C : Type} (db : DB C) (o' : Order C) :
    (setOrder db o').sellers = db.sellers := rfl

theorem setOrder_products {C : Type} (db : DB C) (o' : Order C) :
    (setOrder db o').products = db.products := rfl

theorem setOrder_variations {C : Type} (db : DB C) (o' : Order C) :
    (setOrder db o').variations = db.variations := rfl

theorem find?_map_replace {C : Type} (l : List (Order C)) (oid : Nat)
    (o' : Order C) (hid : o'.id = oid)
    (h : (l.find? (fun o => decide (o.id = oid))).isSome) :
    (l.map (fun o => if o.id = o'.id then o' else o)).find?
      (fun o => decide (o.id = oid)) = some o' := by
  induction l with
  | nil => simp at h
  | cons o0 rest ih =>
    by_cases h0 : o0.id = oid
    · have he : o0.id = o'.id := by rw [hid]; exact h0
      rw [List.map_cons, if_pos he, List.find?_cons_of_pos _ (by simp [hid])]
    · have hne : o0.id ≠ o'.id := by rw [hid]; exact h0
      rw [List.find?_cons_of_neg _ (by simp [h0])] at h
      rw [List.map_cons, if_neg hne, List.find?_cons_of_neg _ (by simp [h0])]
      exact ih h

theorem findOrder_setOrder_self {C : Type} {db : DB C} {oid : Nat}
    {o o' : Order C} (h : findOrder db oid = some o) (hid : o'.id = oid) :
    findOrder (setOrder db o') oid = some o' := by
  unfold findOrder setOrder
  exact find?_map_replace db.orders oid o' hid (by unfold findOrder at h; simp [h])

theorem mem_setOrder {C : Type} {db : DB C} {o' x : Order C}
    (h : x ∈ (setOrder db o').orders) : x ∈ db.orders ∨ x = o' := by
  unfold setOrder at h
  simp only [List.mem_map] at h
  obtain ⟨y, hy, hxy⟩ := h
  by_cases hid : y.id = o'.id
  · right; rw [← hxy, if_pos hid]
  · left; rw [← hxy, if_neg hid]; exact hy

theorem mem_setOrder_of_ne {C : Type} {db : DB C} {o' x : Order C}
    (h : x ∈ db.orders) (hne : x.id ≠ o'.id) :
    x ∈ (setOrder db o').orders := by
  unfold setOrder
  simp only [List.mem_map]
  exact ⟨x, h, by rw [if_neg hne]⟩

/-! ### Lemmas about the inventory update loops -/

theorem keepsKey_resStep (it : OrderItem) : keepsKey (resStep it) :=
  fun _ => ⟨rfl, rfl, rfl⟩

theorem keepsKey_relStep (it : OrderItem) : keepsKey (relStep it) :=
  fun _ => ⟨rfl, rfl, rfl⟩

theorem invMatches_map {sid : Nat} {it : OrderItem} {f : POSInventory → POSInventory}
    (hf : keepsKey f) (inv : POSInventory) :
    invMatches sid it (f inv) ↔ invMatches sid it inv := by
  unfold invMatches
  rw [(hf inv).1, (hf inv).2.1, (hf inv).2.2]

theorem findInv_updateInv_self {invs : List POSInventory} {sid : Nat}
    {it : OrderItem} {f : POSInventory → POSInventory} (hf : keepsKey f) :
    findInv (updateInv invs sid it f) sid it = (findInv invs sid it).map f := by
  induction invs with
  | nil => rfl
  | cons inv rest ih =>
    unfold updateInv
    by_cases hm : invMatches sid it inv
    · rw [if_pos hm]
      unfold findInv
      rw [List.find?_cons_of_pos _ (by simp [(invMatches_map hf inv).mpr hm]),
          List.find?_cons_of_pos _ (by simp [hm])]
      rfl
    · rw [if_neg hm]
      unfold findInv at ih ⊢
      rw [List.find?_cons_of_neg _ (by simp [hm]),
          List.find?_cons_of_neg _ (by simp [hm])]
      exact ih

theorem findInv_updateInv_other {invs : List POSInventory} {sid sid' : Nat}
    {it it' : OrderItem} {f : POSInventory → POSInventory} (hf : keepsKey f)
    (hdisj : ∀ inv, invMatches sid it inv → ¬ invMatches sid' it' inv) :
    findInv (updateInv invs sid it f) sid' it' = findInv invs sid' it' := by
  induction invs with
  | nil => rfl
  | cons inv rest ih =>
    unfold updateInv
    by_cases hm : invMatches sid it inv
    · rw [if_pos hm]
      unfold findInv
      rw [List.find?_cons_of_neg _
            (by simp; exact fun h => hdisj inv hm ((invMatches_map hf inv).mp h)),
          List.find?_cons_of_neg _ (by simp; exact hdisj inv hm)]
    · rw [if_neg hm]
      unfold findInv at ih ⊢
      by_cases hm' : invMatches sid' it' inv
      · rw [List.find?_cons_of_pos _ (by simp [hm']),
            List.find?_cons_of_pos _ (by simp [hm'])]
      · rw [List.find?_cons_of_neg _ (by simp [hm']),
            List.find?_cons_of_neg _ (by simp [hm'])]
        exact ih

theorem mem_updateInv {invs : List POSInventory} {sid : Nat} {it : OrderItem}
    {f : POSInventory → POSInventory} {x : POSInventory}
    (h : x ∈ updateInv invs sid it f) :
    x ∈ invs ∨ ∃ y, findInv invs sid it = some y ∧ x = f y := by
  induction invs with
  | nil => simp [updateInv] at h
  | cons inv rest ih =>
    unfold updateInv at h
    by_cases hm : invMatches sid it inv
    · rw [if_pos hm] at h
      rcases List.mem_cons.mp h with h1 | h1
      · refine Or.inr ⟨inv, ?_, h1⟩
        unfold findInv
        rw [List.find?_cons_of_pos _ (by simp [hm])]
      · exact Or.inl (List.mem_cons_of_mem _ h1)
    · rw [if_neg hm] at h
      rcases List.mem_cons.mp h with h1 | h1
      · exact Or.inl (by simp [h1])
      · rcases ih h1 with h2 | ⟨y, hy, hxy⟩
        · exact Or.inl (List.mem_cons_of_mem _ h2)
        · refine Or.inr ⟨y, ?_, hxy⟩
          unfold findInv at hy ⊢
          rw [List.find?_cons_of_neg _ (by simp [hm])]
          exact hy

theorem updateInv_of_none {invs : List POSInventory} {sid : Nat}
    {it : OrderItem} {f : POSInventory → POSInventory}
    (h : findInv invs sid it = none) : updateInv invs sid it f = invs := by
  induction invs with
  | nil => rfl
  | cons inv rest ih =>
    unfold findInv at h ih
    unfold updateInv
    by_cases hm : invMatches sid it inv
    · rw [List.find?_cons_of_pos _ (by simp [hm])] at h; exact absurd h (by simp)
    · rw [List.find?_cons_of_neg _ (by simp [hm])] at h
      rw [if_neg hm, ih h]

/-- Order lines with distinct record keys address disjoint inventory rows. -/
theorem invMatches_disjoint {sid : Nat} {it it' : OrderItem}
    (hne : ¬ sameKey it it') :
    ∀ inv, invMatches sid it inv → ¬ invMatches sid it' inv := by
  intro inv h h'
  exact hne ⟨h.2.1.symm.trans h'.2.1, h.2.2.symm.trans h'.2.2⟩

theorem foldUpdate_cons (invs : List POSInventory) (sid : Nat)
    (g : OrderItem → POSInventory → POSInventory) (it : OrderItem)
    (rest : List OrderItem) :
    foldUpdate invs sid g (it :: rest) =
      foldUpdate (updateInv invs sid it (g it)) sid g rest := rfl

theorem findInv_foldUpdate_other {invs : List POSInventory} {sid sid' : Nat}
    {items : List OrderItem} {it' : OrderItem}
    {g : OrderItem → POSInventory → POSInventory}
    (hg : ∀ it, keepsKey (g it))
    (hdisj : ∀ it ∈ items, ∀ inv, invMatches sid it inv → ¬ invMatches sid' it' inv) :
    findInv (foldUpdate invs sid g items) sid' it' = findInv invs sid' it' := by
  induction items generalizing invs with
  | nil => rfl
  | cons it rest ih =>
    rw [foldUpdate_cons,
        ih (fun i hi => hdisj i (List.mem_cons_of_mem _ hi)),
        findInv_updateInv_other (hg it) (hdisj it (List.mem_cons_self _ _))]

/-- Every row of a `foldUpdate` result is either an untouched original row or
the image under one step of the first row matching that step's item. -/
theorem foldUpdate_forall {invs : List POSInventory} {sid : Nat}
    {items : List OrderItem} {g : OrderItem → POSInventory → POSInventory}
    {P : POSInventory → Prop}
    (hstep : ∀ it ∈ items, ∀ inv, P inv → P (g it inv))
    (hb : ∀ inv ∈ invs, P inv) :
    ∀ inv ∈ foldUpdate invs sid g items, P inv := by
  induction items generalizing invs with
  | nil => exact hb
  | cons it rest ih =>
    rw [foldUpdate_cons]
    refine ih (fun i hi => hstep i (List.mem_cons_of_mem _ hi)) ?_
    intro x hx
    rcases mem_updateInv hx with h1 | ⟨y, hy, rfl⟩
    · exact hb x h1
    · exact hstep it (List.mem_cons_self _ _) y
        (hb y (List.mem_of_find?_eq_some hy))

/-- Distinct keys on a list of order lines, pairwise form. -/
theorem itemsOK_pairwise {items : List OrderItem} (h : itemsOK items) :
    items.Pairwise (fun a b => ¬ sameKey a b) := by
  have h2 : (items.map fun it => (it.product_id, it.variation_id)).Nodup := h.2
  rw [List.Nodup, List.pairwise_map] at h2
  exact h2.imp (fun hne hk => hne (by rw [hk.1, hk.2]))

/-- After the reservation loop on an order with pairwise-distinct line keys,
the row matching each line is exactly the original row with `reserved`
increased by that line's quantity (and a missing row stays missing). -/
theorem reserveItems_findInv {invs : List POSInventory} {sid : Nat}
    {items : List OrderItem}
    (hnd : items.Pairwise (fun a b => ¬ sameKey a b)) :
    ∀ it ∈ items, findInv (reserveItems invs sid items) sid it =
      (findInv invs sid it).map (resStep it) := by
  induction items generalizing invs with
  | nil => simp
  | cons hd rest ih =>
    have hhd := (List.pairwise_cons.mp hnd).1
    have hrest := (List.pairwise_cons.mp hnd).2
    intro it hit
    rcases List.mem_cons.mp hit with rfl | hmem
    · rw [show reserveItems invs sid (it :: rest) =
            foldUpdate (updateInv invs sid it (resStep it)) sid resStep rest from rfl]
      rw [findInv_foldUpdate_other keepsKey_resStep
            (fun i hi => invMatches_disjoint
              (fun hk => hhd i hi ⟨hk.1.symm, hk.2.symm⟩))]
      exact findInv_updateInv_self (keepsKey_resStep it)
    · rw [show reserveItems invs sid (hd :: rest) =
            reserveItems (updateInv invs sid hd (resStep hd)) sid rest from rfl,
          ih hrest it hmem,
          findInv_updateInv_other (keepsKey_resStep hd)
            (invMatches_disjoint (hhd it hmem))]

/-- The reservation loop preserves `0 ≤ reserved ≤ onHand` when every line
has a nonnegative quantity, the line keys are pairwise distinct, and each
line's first matching row (if any) covers the required quantity. -/
theorem reserveItems_bounds {invs : List POSInventory} {sid : Nat}
    {items : List OrderItem}
    (hq : ∀ it ∈ items, 0 ≤ it.quantity)
    (hnd : items.Pairwise (fun a b => ¬ sameKey a b))
    (hcov : ∀ it ∈ items, ∀ inv, findInv invs sid it = some inv →
      it.quantity ≤ inv.quantity - inv.reserved_quantity)
    (hb : ∀ inv ∈ invs, 0 ≤ inv.reserved_quantity ∧
      inv.reserved_quantity ≤ inv.quantity) :
    ∀ inv ∈ reserveItems invs sid items, 0 ≤ inv.reserved_quantity ∧
      inv.reserved_quantity ≤ inv.quantity := by
  induction items generalizing invs with
  | nil => exact hb
  | cons it rest ih =>
    have hhd := (List.pairwise_cons.mp hnd).1
    rw [show reserveItems invs sid (it :: rest) =
          reserveItems (updateInv invs sid it (resStep it)) sid rest from rfl]
    have hb' : ∀ inv ∈ updateInv invs sid it (resStep it),
        0 ≤ inv.reserved_quantity ∧ inv.reserved_quantity ≤ inv.quantity := by
      intro x hx
      rcases mem_updateInv hx with h1 | ⟨y, hy, rfl⟩
      · exact hb x h1
      · have hcy := hcov it (List.mem_cons_self _ _) y hy
        have hby := hb y (List.mem_of_find?_eq_some hy)
        have hqy := hq it (List.mem_cons_self _ _)
        unfold resStep
        constructor
        · exact add_nonneg hby.1 hqy
        · simpa using by linarith [hcy, hby.2]
    refine ih (fun i hi => hq i (List.mem_cons_of_mem _ hi))
      (List.pairwise_cons.mp hnd).2 ?_ hb'
    intro it' hit' inv hinv
    rw [findInv_updateInv_other (keepsKey_resStep it)
          (invMatches_disjoint (hhd it' hit'))] at hinv
    exact hcov it' (List.mem_cons_of_mem _ hit') inv hinv

/-- The release loop preserves `0 ≤ reserved ≤ onHand` for lines with
nonnegative quantities: the decrement is clamped at 0 and can only shrink
`reserved`. -/
theorem releaseItems_bounds {invs : List POSInventory} {sid : Nat}
    {items : List OrderItem}
    (hq : ∀ it ∈ items, 0 ≤ it.quantity)
    (hb : ∀ inv ∈ invs, 0 ≤ inv.reserved_quantity ∧
      inv.reserved_quantity ≤ inv.quantity) :
    ∀ inv ∈ releaseItems invs sid items, 0 ≤ inv.reserved_quantity ∧
      inv.reserved_quantity ≤ inv.quantity := by
  refine foldUpdate_forall ?_ hb
  intro it hit inv hinv
  have hqi := hq it hit
  unfold relStep
  by_cases hc : inv.reserved_quantity - it.quantity < 0
  · simp only [if_pos hc]
    exact ⟨le_refl 0, by linarith [hinv.1, hinv.2]⟩
  · simp only [if_neg hc]
    exact ⟨by linarith, by linarith [hinv.1, hinv.2]⟩

/-- Unpacking a successful `has_stock` check: every line of the order has a
matching inventory row at the seller, with `quantity - reserved` covering the
line's quantity. -/
theorem has_stock_spec {C : Type} {db : DB C} {o : Order C}
    {s : POSSellerProfile C} (h : has_stock db o s = true) :
    ∀ it ∈ o.items, ∃ inv, findInv db.inventory s.id it = some inv ∧
      it.quantity ≤ inv.quantity - inv.reserved_quantity := by
  intro it hit
  have := (List.all_eq_true.mp h) it hit
  cases hfi : findInv db.inventory s.id it with
  | none => rw [hfi] at this; simp at this
  | some inv =>
    rw [hfi] at this
    exact ⟨inv, rfl, by simpa using this⟩

/-- `has_stock` depends only on the inventory table and the order's lines. -/
theorem has_stock_congr {C : Type} (db db' : DB C) (o o' : Order C)
    (s : POSSellerProfile C) (hi : db.inventory = db'.inventory)
    (ht : o.items = o'.items) : has_stock db o s = has_stock db' o' s := by
  unfold has_stock findInv
  rw [hi, ht]

theorem adminDeductStep_orders {C : Type} (acc : DB C) (it : OrderItem) :
    (adminDeductStep acc it).orders = acc.orders := by
  unfold adminDeductStep
  rcases it.variation_id with _ | vid <;> rcases it.product_id with _ | pid <;> rfl

theorem adminDeductStep_inventory {C : Type} (acc : DB C) (it : OrderItem) :
    (adminDeductStep acc it).inventory = acc.inventory := by
  unfold adminDeductStep
  rcases it.variation_id with _ | vid <;> rcases it.product_id with _ | pid <;> rfl

theorem adminDeductStep_sellers {C : Type} (acc : DB C) (it : OrderItem) :
    (adminDeductStep acc it).sellers = acc.sellers := by
  unfold adminDeductStep
  rcases it.variation_id with _ | vid <;> rcases it.product_id with _ | pid <;> rfl

theorem commitAdminDeduction_orders {C : Type} (db : DB C)
    (items : List OrderItem) :
    (commitAdminDeduction db items).orders = db.orders := by
  induction items generalizing db with
  | nil => rfl
  | cons it rest ih =>
    unfold commitAdminDeduction at ih ⊢
    rw [List.foldl_cons, ih, adminDeductStep_orders]

theorem commitAdminDeduction_inventory {C : Type} (db : DB C)
    (items : List OrderItem) :
    (commitAdminDeduction db items).inventory = db.inventory := by
  induction items generalizing db with
  | nil => rfl
  | cons it rest ih =>
    unfold commitAdminDeduction at ih ⊢
    rw [List.foldl_cons, ih, adminDeductStep_inventory]

/-- The state effect of `fallback_to_admin`: the order now points at admin
direct fulfillment with no seller, status `assigned`; the POS inventory is
untouched; global stock is deducted by `commitAdminDeduction`. -/
theorem fallback_to_admin_state {C : Type} {db : DB C} {oid : Nat}
    {o : Order C} (hfind : findOrder db oid = some o) :
    (fallback_to_admin db o).1 = (true, "Assigned to Admin Direct Fulfillment") ∧
    (fallback_to_admin db o).2.inventory = db.inventory ∧
    findOrder (fallback_to_admin db o).2 oid = some (adminOrder o) ∧
    (∀ x ∈ (fallback_to_admin db o).2.orders, x ∈ db.orders ∨ x = adminOrder o) := by
  unfold fallback_to_admin
  refine ⟨rfl, ?_, ?_, ?_⟩
  · rw [commitAdminDeduction_inventory, setOrder_inventory]
  · show findOrder (commitAdminDeduction (setOrder db (adminOrder o)) o.items) oid = _
    unfold findOrder
    rw [commitAdminDeduction_orders]
    exact find?_map_replace db.orders oid _
      (by simpa [adminOrder] using findOrder_some_id hfind) (by
        unfold findOrder at hfind; simp [hfind])
  · intro x hx
    have hx' : x ∈ (setOrder db (adminOrder o)).orders := by
      rw [← commitAdminDeduction_orders (setOrder db (adminOrder o)) o.items]
      exact hx
    exact mem_setOrder hx'

theorem mem_sorted_take {α : Type} {r : α → α → Prop} [DecidableRel r]
    {l : List α} {n : Nat} {x : α}
    (h : x ∈ (List.insertionSort r l).take n) : x ∈ l :=
  ((List.perm_insertionSort r l).mem_iff).mp (List.take_subset _ _ h)

theorem cand_mem_spec {C : Type} {D : Type} [LinearOrder D] {db' : DB C}
    {o : Order C} {dfun : POSSellerProfile C → D} {limit : Nat}
    {sd : POSSellerProfile C × D}
    (h : sd ∈ (List.insertionSort candLE
      (((db'.sellers.filter (fun s => s.is_active)).filter
          (fun s => has_stock db' o s)).map (fun s => (s, dfun s)))).take limit) :
    sd.1.is_active = true ∧ has_stock db' o sd.1 = true := by
  have h1 := mem_sorted_take h
  rcases List.mem_map.mp h1 with ⟨s, hs, rfl⟩
  have h2 := List.mem_filter.mp hs
  have h3 := List.mem_filter.mp h2.1
  exact ⟨h3.2, h2.2⟩

section RoutingLemmas

variable {C : Type} {D : Type} [LinearOrder D] [OrderTop D]
variable (calcDist : Option C → Option C → Option C → Option C → D)
variable (geocode : ShipAddr C → Option (C × C))
variable (chinaLat chinaLon : C)

/-- What `find_nearest_eligible_sellers` does to the database and what its
candidates satisfy: only the looked-up order row can change (and only its
shipping address, via the geocoding write-back), and every returned candidate
is an active seller passing the full stock check. -/
theorem find_nearest_state {db : DB C} {oid : Nat} {o : Order C} (limit : Nat)
    (hfind : findOrder db oid = some o) :
    (find_nearest_eligible_sellers calcDist geocode db oid limit).1.inventory = db.inventory ∧
    (find_nearest_eligible_sellers calcDist geocode db oid limit).1.sellers = db.sellers ∧
    (find_nearest_eligible_sellers calcDist geocode db oid limit).1.products = db.products ∧
    (find_nearest_eligible_sellers calcDist geocode db oid limit).1.variations = db.variations ∧
    (∃ o1, findOrder (find_nearest_eligible_sellers calcDist geocode db oid limit).1 oid = some o1 ∧
      o1.id = o.id ∧ o1.items = o.items ∧
      o1.assignment_attempts = o.assignment_attempts ∧
      o1.assignment_status = o.assignment_status ∧
      o1.assigned_seller_id = o.assigned_seller_id ∧
      o1.fulfillment_source = o.fulfillment_source) ∧
    (∀ x ∈ (find_nearest_eligible_sellers calcDist geocode db oid limit).1.orders,
      x ∈ db.orders ∨ (x.items = o.items ∧ x.assignment_status = o.assignment_status ∧
        x.assigned_seller_id = o.assigned_seller_id ∧
        x.fulfillment_source = o.fulfillment_source)) ∧
    (∀ sd ∈ (find_nearest_eligible_sellers calcDist geocode db oid limit).2,
      sd.1.is_active = true ∧ has_stock db o sd.1 = true) := by
  unfold find_nearest_eligible_sellers
  rw [hfind]
  dsimp only []
  rcases haddr : o.shipping_address with _ | addr
  · exact ⟨rfl, rfl, rfl, rfl, ⟨o, hfind, rfl, rfl, rfl, rfl, rfl, rfl⟩,
      fun x hx => Or.inl hx, fun sd hsd => absurd hsd (by simp)⟩
  · dsimp only []
    rcases hlat : addr.latitude with _ | la <;>
      rcases hlon : addr.longitude with _ | lo <;>
      rcases hg : geocode addr with _ | ⟨gla, glo⟩ <;>
      try dsimp only []
    all_goals first
      | exact ⟨rfl, rfl, rfl, rfl, ⟨o, hfind, rfl, rfl, rfl, rfl, rfl, rfl⟩,
          fun x hx => Or.inl hx, fun sd hsd => cand_mem_spec hsd⟩
      | exact ⟨rfl, rfl, rfl, rfl,
          ⟨_, findOrder_setOrder_self hfind (by simpa using findOrder_some_id hfind), rfl,
            rfl, rfl, rfl, rfl, rfl⟩,
          fun x hx => (mem_setOrder hx).elim Or.inl
            (fun hxo => Or.inr ⟨by rw [hxo], by rw [hxo], by rw [hxo], by rw [hxo]⟩),
          fun sd hsd => ⟨(cand_mem_spec hsd).1,
            (has_stock_congr _ db o o sd.1 rfl rfl).symm.trans (cand_mem_spec hsd).2⟩⟩

/-- Case analysis of `assign_order`: either the database is returned
unchanged (missing order / already accepted or shipped), or the engine runs
on a geocode-refreshed state `db1` (same inventory, same order row up to its
shipping address) and then either falls back to admin or reserves stock for
an active candidate seller that passed the full stock check. -/
theorem assign_order_state (db : DB C) (oid : Nat) (now : Int) :
    (assign_order calcDist geocode chinaLat chinaLon db oid now).2 = db ∨
    (∃ o o1 : Order C, ∃ db1 : DB C, findOrder db oid = some o ∧
      o1.items = o.items ∧ o1.assignment_status = o.assignment_status ∧
      o1.assigned_seller_id = o.assigned_seller_id ∧
      o1.fulfillment_source = o.fulfillment_source ∧ o1.id = o.id ∧
      db1.inventory = db.inventory ∧ findOrder db1 oid = some o1 ∧
      (∀ x ∈ db1.orders, x ∈ db.orders ∨
        (x.items = o.items ∧ x.assignment_status = o.assignment_status ∧
         x.assigned_seller_id = o.assigned_seller_id ∧
         x.fulfillment_source = o.fulfillment_source)) ∧
      ((assign_order calcDist geocode chinaLat chinaLon db oid now).2 =
          (fallback_to_admin db1 o1).2 ∨
        ∃ s : POSSellerProfile C, s.is_active = true ∧ has_stock db o s = true ∧
          (assign_order calcDist geocode chinaLat chinaLon db oid now).2 =
            setOrder { db1 with inventory := reserveItems db1.inventory s.id o1.items }
              (assignedOrder o1 s now))) := by
  unfold assign_order
  rcases hfind : findOrder db oid with _ | o
  · exact Or.inl rfl
  · dsimp only []
    by_cases hguard : o.assignment_status = some "accepted" ∨
        o.assignment_status = some "shipped"
    · rw [if_pos hguard]
      exact Or.inl rfl
    · rw [if_neg hguard]
      obtain ⟨hinv, hsel, hprod, hvar, ⟨o1, ho1, hid, hitems, hatt, hstat, hseller, hsrc⟩,
        horders, hcand⟩ := find_nearest_state calcDist geocode 20 hfind
      rw [ho1]
      simp only [Option.getD_some]
      by_cases hidx : o1.assignment_attempts <
          (find_nearest_eligible_sellers calcDist geocode db oid 20).2.length
      · rw [dif_pos hidx]
        by_cases hch : chinaCloser calcDist chinaLat chinaLon o1
            ((find_nearest_eligible_sellers calcDist geocode db oid 20).2.get
              ⟨o1.assignment_attempts, hidx⟩).2 = true
        · rw [if_pos hch]
          exact Or.inr ⟨o, o1, _, rfl, hitems, hstat, hseller, hsrc, hid,
            hinv, ho1, horders, Or.inl rfl⟩
        · rw [if_neg hch]
          refine Or.inr ⟨o, o1, _, rfl, hitems, hstat, hseller, hsrc, hid,
            hinv, ho1, horders, Or.inr ⟨_, ?_, ?_, rfl⟩⟩
          · exact (hcand _ (List.get_mem _ _ _)).1
          · exact (hcand _ (List.get_mem _ _ _)).2
      · rw [dif_neg hidx]
        exact Or.inr ⟨o, o1, _, rfl, hitems, hstat, hseller, hsrc, hid,
          hinv, ho1, horders, Or.inl rfl⟩

theorem fallback_inventory (db : DB C) (o : Order C) :
    (fallback_to_admin db o).2.inventory = db.inventory := by
  unfold fallback_to_admin
  rw [commitAdminDeduction_inventory, setOrder_inventory]

/-- `sellerStatusInv` only looks at three routing fields. -/
theorem sellerStatusInv_fields {x y : Order C}
    (h1 : x.assignment_status = y.assignment_status)
    (h2 : x.assigned_seller_id = y.assigned_seller_id)
    (h3 : x.fulfillment_source = y.fulfillment_source)
    (h : sellerStatusInv y) : sellerStatusInv x := by
  unfold sellerStatusInv at *
  rw [h1, h2, h3]
  exact h

/-- `assign_order` keeps the inventory-bounds invariant, provided every
order's lines have distinct keys and nonnegative quantities. -/
theorem assign_preserves_invBounds (db : DB C) (oid : Nat) (now : Int)
    (hOK : ordersItemsOK db) (hinv : inventoryInv db) :
    inventoryInv (assign_order calcDist geocode chinaLat chinaLon db oid now).2 := by
  rcases assign_order_state calcDist geocode chinaLat chinaLon db oid now with heq |
    ⟨o, o1, db1, hfind, hitems, hstat, hsell, hsrc, hid, hdbinv, ho1, horders, hres⟩
  · rw [heq]; exact hinv
  · have hOKo := hOK o (findOrder_mem hfind)
    rcases hres with heq | ⟨s, hact, hstock, heq⟩
    · rw [heq]
      intro inv hmem
      rw [fallback_inventory, hdbinv] at hmem
      exact hinv inv hmem
    · rw [heq]
      intro inv hmem
      rw [setOrder_inventory] at hmem
      have hmem' : inv ∈ reserveItems db1.inventory s.id o1.items := hmem
      refine reserveItems_bounds ?_ ?_ ?_ ?_ inv hmem'
      · rw [hitems]; exact hOKo.1
      · rw [hitems]; exact itemsOK_pairwise hOKo
      · intro it hit inv' h'
        obtain ⟨inv0, h0, hc⟩ := has_stock_spec hstock it (by rw [← hitems]; exact hit)
        rw [hdbinv, h0] at h'
        cases h'
        exact hc
      · rw [hdbinv]; exact hinv

/-- `reject_order` keeps the inventory-bounds invariant under the same
conditions: the release loop is clamped, and the reassignment call is an
`assign_order`. -/
theorem reject_preserves_invBounds (db : DB C) (pid oid : Nat) (now : Int)
    (hOK : ordersItemsOK db) (hinv : inventoryInv db) :
    inventoryInv (reject_order calcDist geocode chinaLat chinaLon db pid oid now).2 := by
  unfold reject_order
  rcases hfind : findOrder db oid with _ | o
  · exact hinv
  · dsimp only []
    by_cases hsel : o.assigned_seller_id = some pid
    · rw [if_pos hsel]
      dsimp only []
      refine assign_preserves_invBounds calcDist geocode chinaLat chinaLon _ _ _ ?_ ?_
      · intro x hx
        rcases mem_setOrder hx with h1 | rfl
        · exact hOK x h1
        · exact hOK o (findOrder_mem hfind)
      · intro inv hmem
        rw [setOrder_inventory] at hmem
        have hmem' : inv ∈ releaseItems db.inventory pid o.items := hmem
        exact releaseItems_bounds (hOK o (findOrder_mem hfind)).1 hinv inv hmem'
    · rw [if_neg hsel]; exact hinv

/-- `assign_order` preserves the amended seller/status invariant on every
order row. -/
theorem assign_preserves_sellerInv (db : DB C) (oid : Nat) (now : Int)
    (h : ∀ x ∈ db.orders, sellerStatusInv x) :
    ∀ x ∈ (assign_order calcDist geocode chinaLat chinaLon db oid now).2.orders,
      sellerStatusInv x := by
  rcases assign_order_state calcDist geocode chinaLat chinaLon db oid now with heq |
    ⟨o, o1, db1, hfind, hitems, hstat, hsell, hsrc, hid, hdbinv, ho1, horders, hres⟩
  · rw [heq]; exact h
  · have hdb1 : ∀ x ∈ db1.orders, sellerStatusInv x := by
      intro x hx
      rcases horders x hx with h1 | hf
      · exact h x h1
      · exact sellerStatusInv_fields hf.2.1 hf.2.2.1 hf.2.2.2
          (h o (findOrder_mem hfind))
    rcases hres with heq | ⟨s, hact, hstock, heq⟩
    · rw [heq]
      intro x hx
      have hx' : x ∈ (setOrder db1 (adminOrder o1)).orders := by
        rw [← commitAdminDeduction_orders (setOrder db1 (adminOrder o1)) o1.items]
        exact hx
      rcases mem_setOrder hx' with h1 | rfl
      · exact hdb1 x h1
      · unfold sellerStatusInv adminOrder
        simp
    · rw [heq]
      intro x hx
      have hx' : x ∈ (setOrder
          { db1 with inventory := reserveItems db1.inventory s.id o1.items }
          (assignedOrder o1 s now)).orders := hx
      rcases mem_setOrder hx' with h1 | rfl
      · exact hdb1 x h1
      · unfold sellerStatusInv assignedOrder
        rcases s.auto_accept_orders with _ | _ <;> simp

/-- `accept_order` preserves the amended seller/status invariant. -/
theorem accept_preserves_sellerInv (db : DB C) (pid oid : Nat)
    (h : ∀ x ∈ db.orders, sellerStatusInv x) :
    ∀ x ∈ (accept_order db pid oid).2.orders, sellerStatusInv x := by
  unfold accept_order
  rcases hfind : findOrder db oid with _ | o
  · exact h
  · dsimp only []
    by_cases h1 : o.assigned_seller_id = some pid
    · rw [if_pos h1]
      by_cases h2 : o.assignment_status = some "assigned"
      · rw [if_pos h2]
        intro x hx
        rcases mem_setOrder hx with hx1 | rfl
        · exact h x hx1
        · have ho := h o (findOrder_mem hfind)
          unfold sellerStatusInv at ho ⊢
          simp only [h1, Option.isSome_some, true_iff] at ho
          simp [h1, ho.2]
      · rw [if_neg h2]; exact h
    · rw [if_neg h1]; exact h

/-- `reject_order` preserves the amended seller/status invariant. -/
theorem reject_preserves_sellerInv (db : DB C) (pid oid : Nat) (now : Int)
    (h : ∀ x ∈ db.orders, sellerStatusInv x) :
    ∀ x ∈ (reject_order calcDist geocode chinaLat chinaLon db pid oid now).2.orders,
      sellerStatusInv x := by
  unfold reject_order
  rcases hfind : findOrder db oid with _ | o
  · exact h
  · dsimp only []
    by_cases hsel : o.assigned_seller_id = some pid
    · rw [if_pos hsel]
      dsimp only []
      refine assign_preserves_sellerInv calcDist geocode chinaLat chinaLon _ _ _ ?_
      intro x hx
      rcases mem_setOrder hx with h1 | rfl
      · exact h x h1
      · unfold sellerStatusInv
        simp
    · rw [if_neg hsel]; exact h

/-- The admin override endpoint preserves the amended seller/status
invariant. -/
theorem override_preserves_sellerInv (db : DB C) (oid : Nat)
    (h : ∀ x ∈ db.orders, sellerStatusInv x) :
    ∀ x ∈ (override_to_admin db oid).2.orders, sellerStatusInv x := by
  unfold override_to_admin
  rcases hfind : findOrder db oid with _ | o
  · exact h
  · dsimp only []
    intro x hx
    obtain ⟨-, -, -, hmem⟩ := fallback_to_admin_state hfind
    rcases hmem x hx with h1 | rfl
    · exact h x h1
    · unfold sellerStatusInv adminOrder
      simp

/-- `assign_order` is a strict no-op on an accepted order. -/
theorem assign_accepted_noop {db : DB C} {oid : Nat} {o : Order C} (now : Int)
    (hfind : findOrder db oid = some o)
    (hacc : o.assignment_status = some "accepted") :
    assign_order calcDist geocode chinaLat chinaLon db oid now =
      ((false, "Order already accepted or shipped"), db) := by
  unfold assign_order
  rw [hfind]
  dsimp only []
  rw [if_pos (Or.inl hacc)]

/-- `accept_order` is a strict no-op on an order that is not in the
`assigned` state (HTTP 400 path). -/
theorem accept_not_assigned_noop {db : DB C} {pid oid : Nat} {o : Order C}
    (hfind : findOrder db oid = some o)
    (hacc : o.assignment_status ≠ some "assigned") :
    accept_order db pid oid = (false, db) := by
  unfold accept_order
  rw [hfind]
  dsimp only []
  by_cases h1 : o.assigned_seller_id = some pid
  · rw [if_pos h1, if_neg hacc]
  · rw [if_neg h1]

end RoutingLemmas

/-! ### The distance function (claim C9) -/

theorem haversine_comm (la1 lo1 la2 lo2 : ℝ) :
    haversine la1 lo1 la2 lo2 = haversine la2 lo2 la1 lo1 := by
  unfold haversine
  have hs : ∀ x y : ℝ, Real.sin ((x - y) / 2) ^ 2 = Real.sin ((y - x) / 2) ^ 2 := by
    intro x y
    rw [show (x - y) / 2 = -((y - x) / 2) by ring, Real.sin_neg, neg_sq]
  dsimp only []
  rw [hs (radians la2) (radians la1), hs (radians lo2) (radians lo1),
    mul_comm (Real.cos (radians la1)) (Real.cos (radians la2))]

theorem haversine_self (la lo : ℝ) : haversine la lo la lo = 0 := by
  unfold haversine
  dsimp only []
  simp [sub_self]

/-- C9: `calculate_distance` is symmetric, zero on identical coordinate
pairs, and returns `⊤` (the model of `float('inf')`) whenever any coordinate
of either point is missing, so a party lacking coordinates never outranks a
real candidate. -/
theorem calculate_distance_props :
    (∀ lat1 lon1 lat2 lon2 : Option ℝ,
      calculate_distance lat1 lon1 lat2 lon2 =
        calculate_distance lat2 lon2 lat1 lon1) ∧
    (∀ la lo : ℝ, calculate_distance (some la) (some lo) (some la) (some lo) =
      ((0 : ℝ) : WithTop ℝ)) ∧
    (∀ lat1 lon1 lat2 lon2 : Option ℝ,
      lat1 = none ∨ lon1 = none ∨ lat2 = none ∨ lon2 = none →
      calculate_distance lat1 lon1 lat2 lon2 = ⊤) := by
  refine ⟨?_, ?_, ?_⟩
  · intro a b c d
    rcases a with _ | la1 <;> rcases b with _ | lo1 <;>
      rcases c with _ | la2 <;> rcases d with _ | lo2 <;> try rfl
    simp only [calculate_distance]
    rw [haversine_comm]
  · intro la lo
    simp only [calculate_distance]
    rw [haversine_self]
  · intro a b c d h
    rcases a with _ | la1 <;> rcases b with _ | lo1 <;>
      rcases c with _ | la2 <;> rcases d with _ | lo2 <;> try rfl
    simp at h

/-- Witness for C9 at concrete coordinates. -/
theorem calculate_distance_props_witness :
    calculate_distance (some 1) (some 2) (some 0) (some 0) =
      calculate_distance (some 0) (some 0) (some 1) (some 2) ∧
    calculate_distance (some 1) (some 2) (some 1) (some 2) =
      ((0 : ℝ) : WithTop ℝ) ∧
    ((none : Option ℝ) = none ∨ (some (2 : ℝ)) = none ∨
      (some (0 : ℝ)) = none ∨ (some (0 : ℝ)) = none) ∧
    calculate_distance none (some 2) (some 0) (some 0) = ⊤ :=
  ⟨calculate_distance_props.1 _ _ _ _,
   calculate_distance_props.2.1 1 2,
   Or.inl rfl,
   calculate_distance_props.2.2 _ _ _ _ (Or.inl rfl)⟩

/-! ### Claim C1 -/

/-- C1 counterexample: the inventory invariant `0 ≤ reserved ≤ onHand` holds
in `dbDup`, yet the reservation performed by `assign_order` on an order with
two lines of the same SKU drives `reserved` to 4 with `onHand` 3. -/
theorem assign_breaks_inventory_bounds_on_duplicate_lines :
    inventoryInv dbDup ∧
    ¬ inventoryInv (assign_order noDist noGeo 7 7 dbDup 1 0).2 ∧
    (findInv (assign_order noDist noGeo 7 7 dbDup 1 0).2.inventory 1 (item1 2)).map
      (fun i => (i.quantity, i.reserved_quantity)) = some (3, 4) := by decide

/-- C1 (amended): provided every order's lines address pairwise-distinct
inventory records and carry nonnegative quantities, both inventory-mutating
operations — the per-line reservation performed during assignment and the
clamped release performed on rejection — preserve `0 ≤ reserved ≤ onHand`
for every inventory row, so `available = onHand − reserved` never goes
negative. -/
theorem inventory_bounds_preserved {C D : Type} [LinearOrder D] [OrderTop D]
    (calcDist : Option C → Option C → Option C → Option C → D)
    (geocode : ShipAddr C → Option (C × C)) (chinaLat chinaLon : C)
    (db : DB C) (oid pid : Nat) (now : Int)
    (hOK : ordersItemsOK db) (hinv : inventoryInv db) :
    inventoryInv (assign_order calcDist geocode chinaLat chinaLon db oid now).2 ∧
    inventoryInv (reject_order calcDist geocode chinaLat chinaLon db pid oid now).2 :=
  ⟨assign_preserves_invBounds calcDist geocode chinaLat chinaLon db oid now hOK hinv,
   reject_preserves_invBounds calcDist geocode chinaLat chinaLon db pid oid now hOK hinv⟩

/-- Witness for C1 (amended) at a concrete well-formed state. -/
theorem inventory_bounds_preserved_witness :
    ordersItemsOK dbPlain ∧ inventoryInv dbPlain ∧
    (inventoryInv (assign_order noDist noGeo 7 7 dbPlain 1 0).2 ∧
     inventoryInv (reject_order noDist noGeo 7 7 dbPlain 1 1 0).2) :=
  ⟨by decide, by decide,
   inventory_bounds_preserved noDist noGeo 7 7 dbPlain 1 1 0 (by decide) (by decide)⟩

/-! ### Claim C2 -/

/-- C2 counterexample: the claimed invariant (`assignedSellerId` non-null iff
status ∈ {assigned, accepted}) holds in `dbNoSellers` and fails after
`assign_order`: the admin fallback leaves status `assigned` with a null
seller. -/
theorem fallback_breaks_claimed_seller_invariant :
    (∀ x ∈ dbNoSellers.orders, claimedSellerInv x) ∧
    ¬ (∀ x ∈ (assign_order noDist noGeo 7 7 dbNoSellers 1 0).2.orders,
        claimedSellerInv x) ∧
    (findOrder (assign_order noDist noGeo 7 7 dbNoSellers 1 0).2 1).map
      (fun x => (x.assignment_status, x.assigned_seller_id, x.fulfillment_source)) =
      some (some "assigned", none, "admin") := by decide

/-- C2 (amended): the invariant the code actually maintains across assign,
accept, reject and the admin override: `assignedSellerId` is non-null iff
status ∈ {assigned, accepted} **and** `fulfillmentSource ≠ 'admin'`. -/
theorem seller_status_invariant_preserved {C D : Type} [LinearOrder D] [OrderTop D]
    (calcDist : Option C → Option C → Option C → Option C → D)
    (geocode : ShipAddr C → Option (C × C)) (chinaLat chinaLon : C)
    (db : DB C) (oid pid : Nat) (now : Int)
    (h : ∀ x ∈ db.orders, sellerStatusInv x) :
    (∀ x ∈ (assign_order calcDist geocode chinaLat chinaLon db oid now).2.orders,
      sellerStatusInv x) ∧
    (∀ x ∈ (accept_order db pid oid).2.orders, sellerStatusInv x) ∧
    (∀ x ∈ (reject_order calcDist geocode chinaLat chinaLon db pid oid now).2.orders,
      sellerStatusInv x) ∧
    (∀ x ∈ (override_to_admin db oid).2.orders, sellerStatusInv x) :=
  ⟨assign_preserves_sellerInv calcDist geocode chinaLat chinaLon db oid now h,
   accept_preserves_sellerInv db pid oid h,
   reject_preserves_sellerInv calcDist geocode chinaLat chinaLon db pid oid now h,
   override_preserves_sellerInv db oid h⟩

/-- Witness for C2 (amended) at a concrete state. -/
theorem seller_status_invariant_preserved_witness :
    (∀ x ∈ dbPlain.orders, sellerStatusInv x) ∧
    ((∀ x ∈ (assign_order noDist noGeo 7 7 dbPlain 1 0).2.orders, sellerStatusInv x) ∧
     (∀ x ∈ (accept_order dbPlain 1 1).2.orders, sellerStatusInv x) ∧
     (∀ x ∈ (reject_order noDist noGeo 7 7 dbPlain 1 1 0).2.orders, sellerStatusInv x) ∧
     (∀ x ∈ (override_to_admin dbPlain 1).2.orders, sellerStatusInv x)) :=
  ⟨by decide,
   seller_status_invariant_preserved noDist noGeo 7 7 dbPlain 1 1 0 (by decide)⟩

/-! ### Claim C3 -/

/-- C3: evaluating the code at the failing input.  In `dbTwo`, both sellers
can fill the order; the first `assign_order` reserves seller 1's stock, and a
second `assign_order` without any intervening external change is **not** a
no-op: it reserves seller 2's stock while seller 1's reservation is still
held, leaving both `reserved` counters at 1 with the order pointing only at
seller 2. -/
theorem assign_twice_double_reserves :
    ((findInv (assign_order noDist noGeo 7 7 dbTwo 1 0).2.inventory 1 (item1 1)).map
        (fun i => i.reserved_quantity) = some 1 ∧
      (findOrder (assign_order noDist noGeo 7 7 dbTwo 1 0).2 1).map
        (fun o => (o.assigned_seller_id, o.assignment_status)) =
        some (some 1, some "assigned")) ∧
    ((findInv (assign_order noDist noGeo 7 7
          (assign_order noDist noGeo 7 7 dbTwo 1 0).2 1 0).2.inventory 1 (item1 1)).map
        (fun i => i.reserved_quantity) = some 1 ∧
      (findInv (assign_order noDist noGeo 7 7
          (assign_order noDist noGeo 7 7 dbTwo 1 0).2 1 0).2.inventory 2 (item1 1)).map
        (fun i => i.reserved_quantity) = some 1 ∧
      (findOrder (assign_order noDist noGeo 7 7
          (assign_order noDist noGeo 7 7 dbTwo 1 0).2 1 0).2 1).map
        (fun o => o.assigned_seller_id) = some (some 2)) := by decide

/-! ### Claim C4 -/

/-- C4 counterexample: on the duplicate-line order the reservation is neither
refused nor covered: the call succeeds (no `InsufficientStock` outcome
exists in the code), the reserved counters change, yet at the second line's
reservation step the remaining available quantity (1) did not cover the
required quantity (2). -/
theorem reservation_not_all_or_nothing :
    (assign_order noDist noGeo 7 7 dbDup 1 0).1.1 = true ∧
    (assign_order noDist noGeo 7 7 dbDup 1 0).2.inventory ≠ dbDup.inventory ∧
    (findInv (reserveItems dbDup.inventory 1 [item1 2]) 1 (item1 2)).map
      (fun i => decide ((item1 2).quantity ≤ i.quantity - i.reserved_quantity)) =
      some false := by decide

/-- C4 (amended): for orders whose lines are pairwise-distinct SKUs with
nonnegative quantities, `assign_order` is all-or-nothing on the POS ledger:
either every `reserved` counter is left unchanged (no-op, fallback, or
missing order), or the order ends assigned to an active seller and, for
every line, the matching inventory row existed, covered the required
quantity at ranking time, and had its `reserved` incremented by exactly that
line's quantity.  Insufficiency never surfaces as an error: an insufficient
seller is merely excluded from the ranking. -/
theorem reservation_all_or_nothing {C D : Type} [LinearOrder D] [OrderTop D]
    (calcDist : Option C → Option C → Option C → Option C → D)
    (geocode : ShipAddr C → Option (C × C)) (chinaLat chinaLon : C)
    (db : DB C) (oid : Nat) (now : Int) (hOK : ordersItemsOK db) :
    (assign_order calcDist geocode chinaLat chinaLon db oid now).2.inventory =
      db.inventory ∨
    (∃ o : Order C, ∃ s : POSSellerProfile C,
      findOrder db oid = some o ∧ s.is_active = true ∧
      (findOrder (assign_order calcDist geocode chinaLat chinaLon db oid now).2 oid).map
        (fun x => x.assigned_seller_id) = some (some s.id) ∧
      (∀ it ∈ o.items, ∃ inv, findInv db.inventory s.id it = some inv ∧
        it.quantity ≤ inv.quantity - inv.reserved_quantity ∧
        findInv (assign_order calcDist geocode chinaLat chinaLon db oid now).2.inventory
          s.id it = some (resStep it inv))) := by
  rcases assign_order_state calcDist geocode chinaLat chinaLon db oid now with heq |
    ⟨o, o1, db1, hfind, hitems, hstat, hsell, hsrc, hid, hdbinv, ho1, horders, hres⟩
  · rw [heq]; exact Or.inl rfl
  rcases hres with heq | ⟨s, hact, hstock, heq⟩
  · rw [heq, fallback_inventory, hdbinv]
    exact Or.inl rfl
  · right
    refine ⟨o, s, hfind, hact, ?_, ?_⟩
    · rw [heq]
      have h2 : findOrder (setOrder
          { db1 with inventory := reserveItems db1.inventory s.id o1.items }
          (assignedOrder o1 s now)) oid = some (assignedOrder o1 s now) := by
        have h3 : (assignedOrder o1 s now).id = oid := by
          have h4 : o1.id = oid := by rw [hid]; exact findOrder_some_id hfind
          simpa [assignedOrder] using h4
        exact findOrder_setOrder_self ho1 h3
      rw [h2]
      rfl
    · intro it hit
      obtain ⟨inv, h0, hc⟩ := has_stock_spec hstock it hit
      refine ⟨inv, h0, hc, ?_⟩
      rw [heq, setOrder_inventory]
      have hre : findInv (reserveItems db1.inventory s.id o1.items) s.id it =
          (findInv db1.inventory s.id it).map (resStep it) := by
        refine reserveItems_findInv ?_ it ?_
        · have hp := itemsOK_pairwise (hOK o (findOrder_mem hfind))
          rw [← hitems] at hp
          exact hp
        · rw [hitems]; exact hit
      refine hre.trans ?_
      rw [hdbinv, h0]
      rfl

/-- Witness for C4 (amended) at a concrete state. -/
theorem reservation_all_or_nothing_witness :
    ordersItemsOK dbPlain ∧
    ((assign_order noDist noGeo 7 7 dbPlain 1 0).2.inventory = dbPlain.inventory ∨
    (∃ o : Order Nat, ∃ s : POSSellerProfile Nat,
      findOrder dbPlain 1 = some o ∧ s.is_active = true ∧
      (findOrder (assign_order noDist noGeo 7 7 dbPlain 1 0).2 1).map
        (fun x => x.assigned_seller_id) = some (some s.id) ∧
      (∀ it ∈ o.items, ∃ inv, findInv dbPlain.inventory s.id it = some inv ∧
        it.quantity ≤ inv.quantity - inv.reserved_quantity ∧
        findInv (assign_order noDist noGeo 7 7 dbPlain 1 0).2.inventory
          s.id it = some (resStep it inv)))) :=
  ⟨by decide, reservation_all_or_nothing noDist noGeo 7 7 dbPlain 1 0 (by decide)⟩

/-! ### Claim C7 -/

/-- C7 counterexample: `reject_order` has no status guard, so the assigned
seller can reject an **accepted** order: its reservation is released
(reserved 1 → 0) and the order is re-routed (here to admin fallback),
leaving the `accepted` state. -/
theorem reject_moves_accepted_order :
    (findOrder dbAccepted 1).map (fun o => o.assignment_status) =
      some (some "accepted") ∧
    (reject_order noDist noGeo 7 7 dbAccepted 1 1 30).1 = true ∧
    (findOrder (reject_order noDist noGeo 7 7 dbAccepted 1 1 30).2 1).map
      (fun o => (o.assignment_status, o.assigned_seller_id, o.fulfillment_source)) =
      some (some "assigned", none, "admin") ∧
    (findInv (reject_order noDist noGeo 7 7 dbAccepted 1 1 30).2.inventory 1
      (item1 1)).map (fun i => i.reserved_quantity) = some 0 := by decide

/-- C7 (amended): once an order is `accepted`, `assign_order` and
`accept_order` are strict no-ops (the reject endpoint, lacking a status
guard, is the exception the counterexample exhibits). -/
theorem accepted_orders_frozen_for_assign_and_accept {C D : Type}
    [LinearOrder D] [OrderTop D]
    (calcDist : Option C → Option C → Option C → Option C → D)
    (geocode : ShipAddr C → Option (C × C)) (chinaLat chinaLon : C)
    (db : DB C) (oid pid : Nat) (now : Int) (o : Order C)
    (hfind : findOrder db oid = some o)
    (hacc : o.assignment_status = some "accepted") :
    assign_order calcDist geocode chinaLat chinaLon db oid now =
      ((false, "Order already accepted or shipped"), db) ∧
    accept_order db pid oid = (false, db) :=
  ⟨assign_accepted_noop calcDist geocode chinaLat chinaLon now hfind hacc,
   accept_not_assigned_noop hfind (by rw [hacc]; decide)⟩

/-- Witness for C7 (amended) on the concrete accepted order. -/
theorem accepted_orders_frozen_witness :
    findOrder dbAccepted 1 = some ordAccepted ∧
    ordAccepted.assignment_status = some "accepted" ∧
    (assign_order noDist noGeo 7 7 dbAccepted 1 0 =
      ((false, "Order already accepted or shipped"), dbAccepted) ∧
     accept_order dbAccepted 1 1 = (false, dbAccepted)) :=
  ⟨by decide, by decide,
   accepted_orders_frozen_for_assign_and_accept noDist noGeo 7 7 dbAccepted 1 1 0
     ordAccepted (by decide) (by decide)⟩

/-! ### Claim C5 -/

theorem find_nearest_coords_same_db {C D : Type} [LinearOrder D] [OrderTop D]
    (calcDist : Option C → Option C → Option C → Option C → D)
    (geocode : ShipAddr C → Option (C × C))
    {db : DB C} {oid : Nat} {o : Order C} {addr : ShipAddr C} {cl co : C}
    (limit : Nat) (hfind : findOrder db oid = some o)
    (haddr : o.shipping_address = some addr)
    (hlat : addr.latitude = some cl) (hlon : addr.longitude = some co) :
    (find_nearest_eligible_sellers calcDist geocode db oid limit).1 = db := by
  unfold find_nearest_eligible_sellers
  rw [hfind]
  dsimp only []
  rw [haddr]
  dsimp only []
  rw [hlat, hlon]

/-- C5: for an order with known customer coordinates, whenever the hub is
strictly closer than every returned candidate (in particular the selected
one), `assign_order` takes the admin fallback and never produces a seller
assignment. -/
theorem hub_closer_forces_admin_fallback {C D : Type} [LinearOrder D] [OrderTop D]
    (calcDist : Option C → Option C → Option C → Option C → D)
    (geocode : ShipAddr C → Option (C × C)) (chinaLat chinaLon : C)
    (db : DB C) (oid : Nat) (now : Int) (o : Order C) (addr : ShipAddr C)
    (cl co : C)
    (hfind : findOrder db oid = some o)
    (hguard : ¬(o.assignment_status = some "accepted" ∨
      o.assignment_status = some "shipped"))
    (haddr : o.shipping_address = some addr)
    (hlat : addr.latitude = some cl) (hlon : addr.longitude = some co)
    (hhub : ∀ sd ∈ (find_nearest_eligible_sellers calcDist geocode db oid 20).2,
      calcDist (some cl) (some co) (some chinaLat) (some chinaLon) < sd.2) :
    assign_order calcDist geocode chinaLat chinaLon db oid now =
      ((true, "Assigned to Admin Direct Fulfillment"), (fallback_to_admin db o).2) ∧
    (findOrder (assign_order calcDist geocode chinaLat chinaLon db oid now).2 oid).map
      (fun x => (x.assigned_seller_id, x.fulfillment_source)) =
      some (none, "admin") ∧
    (assign_order calcDist geocode chinaLat chinaLon db oid now).2.inventory =
      db.inventory := by
  have hdb1 := find_nearest_coords_same_db calcDist geocode 20 hfind haddr hlat hlon
  have hmain : assign_order calcDist geocode chinaLat chinaLon db oid now =
      ((true, "Assigned to Admin Direct Fulfillment"), (fallback_to_admin db o).2) := by
    unfold assign_order
    rw [hfind]
    dsimp only []
    rw [if_neg hguard, hdb1, hfind]
    simp only [Option.getD_some]
    by_cases hidx : o.assignment_attempts <
        (find_nearest_eligible_sellers calcDist geocode db oid 20).2.length
    · rw [dif_pos hidx]
      have hbest : chinaCloser calcDist chinaLat chinaLon o
          ((find_nearest_eligible_sellers calcDist geocode db oid 20).2.get
            ⟨o.assignment_attempts, hidx⟩).2 = true := by
        unfold chinaCloser
        rw [haddr]
        dsimp only []
        rw [hlat, hlon]
        exact decide_eq_true (hhub _ (List.get_mem _ _ _))
      rw [if_pos hbest]
      rfl
    · rw [dif_neg hidx]
      rfl
  obtain ⟨-, -, hord, -⟩ := fallback_to_admin_state hfind
  refine ⟨hmain, ?_, ?_⟩
  · rw [hmain]
    dsimp only []
    rw [hord]
    rfl
  · rw [hmain]
    dsimp only []
    exact fallback_inventory db o

/-- Witness for C5: customer at (5,5), eligible seller far away, hub at
(1,1) at distance 0 under the concrete oracle `hubDist`. -/
theorem hub_closer_witness :
    findOrder dbHub 1 = some (mkOrder (some addrC) [item1 1]) ∧
    (∀ sd ∈ (find_nearest_eligible_sellers hubDist noGeo dbHub 1 20).2,
      hubDist (some 5) (some 5) (some 1) (some 1) < sd.2) ∧
    assign_order hubDist noGeo 1 1 dbHub 1 0 =
      ((true, "Assigned to Admin Direct Fulfillment"),
        (fallback_to_admin dbHub (mkOrder (some addrC) [item1 1])).2) :=
  ⟨by decide, by decide,
   (hub_closer_forces_admin_fallback hubDist noGeo 1 1 dbHub 1 0
     (mkOrder (some addrC) [item1 1]) addrC 5 5
     (by decide) (by decide) (by decide) (by decide) (by decide) (by decide)).1⟩

/-! ### Claim C6 -/

theorem stock_pred_congr {invs : List POSInventory} {sid : Nat}
    {l : List OrderItem} (hq : ∀ it ∈ l, 1 ≤ it.quantity) :
    (l.all fun it =>
      match findInv invs sid it with
      | some inv => decide (it.quantity ≤ inv.quantity - inv.reserved_quantity)
      | none => false) =
    (l.all fun it => decide (it.quantity ≤ availableSpec invs sid it)) := by
  induction l with
  | nil => rfl
  | cons it rest ih =>
    simp only [List.all_cons]
    rw [ih (fun i hi => hq i (List.mem_cons_of_mem _ hi))]
    congr 1
    cases hfi : findInv invs sid it with
    | some inv =>
      unfold availableSpec
      rw [hfi]
    | none =>
      unfold availableSpec
      rw [hfi]
      dsimp only []
      have h1 := hq it (List.mem_cons_self _ _)
      symm
      rw [decide_eq_false_iff_not]
      omega

/-- C6 counterexample: with six active, fully stocked sellers, the ranker
truncates to its `limit` parameter (default 5): seller 6 is active and
covers every line, yet is missing from the output. -/
theorem ranker_truncates_to_limit :
    (find_nearest_eligible_sellers noDist noGeo dbSix 1).2.map (fun p => p.1.id) =
      [1, 2, 3, 4, 5] ∧
    mkSeller 6 ∈ dbSix.sellers ∧ (mkSeller 6).is_active = true ∧
    (∀ it ∈ (mkOrder (some addrNC) [item1 1]).items,
      it.quantity ≤ availableSpec dbSix.inventory 6 it) ∧
    ¬ (mkSeller 6 ∈ (find_nearest_eligible_sellers noDist noGeo dbSix 1).2.map
        (fun p => p.1)) := by decide

/-- C6 (amended): for an order with resolved customer coordinates and
positive line quantities the code's ranker equals the spec ranker — exactly
the active sellers whose available quantity (`onHand − reserved`, 0 when the
record is missing) covers every line, as `(seller, distance)` pairs sorted
ascending by `(distance, sellerId)` — truncated to the first `limit` entries
(default 5; 20 when called from `assign_order`). -/
theorem ranker_matches_spec_up_to_limit {C D : Type} [LinearOrder D] [OrderTop D]
    (calcDist : Option C → Option C → Option C → Option C → D)
    (geocode : ShipAddr C → Option (C × C))
    (db : DB C) (oid : Nat) (limit : Nat)
    (o : Order C) (addr : ShipAddr C) (cl co : C)
    (hfind : findOrder db oid = some o) (haddr : o.shipping_address = some addr)
    (hlat : addr.latitude = some cl) (hlon : addr.longitude = some co)
    (hq : ∀ it ∈ o.items, 1 ≤ it.quantity) :
    find_nearest_eligible_sellers calcDist geocode db oid limit =
      (db, (rankerSpec calcDist db o cl co).take limit) := by
  unfold find_nearest_eligible_sellers rankerSpec
  rw [hfind]
  dsimp only []
  rw [haddr]
  dsimp only []
  rw [hlat, hlon]
  dsimp only []
  have hfil : List.filter (fun s => has_stock db o s)
        (List.filter (fun s => s.is_active) db.sellers) =
      List.filter (fun s => o.items.all
          (fun it => decide (it.quantity ≤ availableSpec db.inventory s.id it)))
        (List.filter (fun s => s.is_active) db.sellers) := by
    apply List.filter_congr
    intro s hs
    unfold has_stock
    exact stock_pred_congr hq
  rw [hfil]

/-- Witness for C6 (amended) at a concrete state with coordinates. -/
theorem ranker_matches_spec_witness :
    (∀ it ∈ (mkOrder (some addrC) [item1 1]).items, 1 ≤ it.quantity) ∧
    find_nearest_eligible_sellers noDist noGeo dbCoords 1 5 =
      (dbCoords,
        (rankerSpec noDist dbCoords (mkOrder (some addrC) [item1 1]) 5 5).take 5) :=
  ⟨by decide,
   ranker_matches_spec_up_to_limit noDist noGeo dbCoords 1 5
     (mkOrder (some addrC) [item1 1]) addrC 5 5
     (by decide) (by decide) (by decide) (by decide) (by decide)⟩

/-! ### Claim C10 -/

theorem find_nearest_no_address {C D : Type} [LinearOrder D] [OrderTop D]
    (calcDist : Option C → Option C → Option C → Option C → D)
    (geocode : ShipAddr C → Option (C × C))
    {db : DB C} {oid : Nat} {o : Order C} (limit : Nat)
    (hfind : findOrder db oid = some o)
    (haddr : o.shipping_address = none) :
    find_nearest_eligible_sellers calcDist geocode db oid limit = (db, []) := by
  unfold find_nearest_eligible_sellers
  rw [hfind]
  dsimp only []
  rw [haddr]

/-- C10: an order whose shipping address is absent yields an empty candidate
list and is always routed to admin fallback — global stock deducted through
`commitAdminDeduction`, success returned — even when active sellers with
sufficient stock for every line exist. -/
theorem missing_address_routes_to_admin {C D : Type} [LinearOrder D] [OrderTop D]
    (calcDist : Option C → Option C → Option C → Option C → D)
    (geocode : ShipAddr C → Option (C × C)) (chinaLat chinaLon : C)
    (db : DB C) (oid : Nat) (now : Int) (o : Order C)
    (hfind : findOrder db oid = some o)
    (haddr : o.shipping_address = none)
    (hguard : ¬(o.assignment_status = some "accepted" ∨
      o.assignment_status = some "shipped")) :
    (∀ limit, (find_nearest_eligible_sellers calcDist geocode db oid limit).2 = []) ∧
    assign_order calcDist geocode chinaLat chinaLon db oid now =
      ((true, "Assigned to Admin Direct Fulfillment"), (fallback_to_admin db o).2) ∧
    (findOrder (assign_order calcDist geocode chinaLat chinaLon db oid now).2 oid).map
      (fun x => (x.assigned_seller_id, x.fulfillment_source)) =
      some (none, "admin") ∧
    (assign_order calcDist geocode chinaLat chinaLon db oid now).2.inventory =
      db.inventory := by
  have hfn : ∀ limit, find_nearest_eligible_sellers calcDist geocode db oid limit =
      (db, []) := fun limit => find_nearest_no_address calcDist geocode limit hfind haddr
  have hmain : assign_order calcDist geocode chinaLat chinaLon db oid now =
      ((true, "Assigned to Admin Direct Fulfillment"), (fallback_to_admin db o).2) := by
    unfold assign_order
    rw [hfind]
    dsimp only []
    rw [if_neg hguard, hfn 20]
    dsimp only []
    rw [hfind]
    simp only [Option.getD_some]
    rw [dif_neg (by simp)]
    rfl
  obtain ⟨-, -, hord, -⟩ := fallback_to_admin_state hfind
  refine ⟨fun limit => by rw [hfn limit], hmain, ?_, ?_⟩
  · rw [hmain]
    dsimp only []
    rw [hord]
    rfl
  · rw [hmain]
    dsimp only []
    exact fallback_inventory db o

/-- Witness for C10: address-less order routed to admin although an active
seller with sufficient stock exists. -/
theorem missing_address_witness :
    (mkOrder none [item1 1]).shipping_address = none ∧
    has_stock dbNoAddr (mkOrder none [item1 1]) (mkSeller 1) = true ∧
    (find_nearest_eligible_sellers noDist noGeo dbNoAddr 1 20).2 = [] ∧
    assign_order noDist noGeo 7 7 dbNoAddr 1 0 =
      ((true, "Assigned to Admin Direct Fulfillment"),
        (fallback_to_admin dbNoAddr (mkOrder none [item1 1])).2) :=
  ⟨rfl, by decide,
   (missing_address_routes_to_admin noDist noGeo 7 7 dbNoAddr 1 0
     (mkOrder none [item1 1]) (by decide) rfl (by decide)).1 20,
   (missing_address_routes_to_admin noDist noGeo 7 7 dbNoAddr 1 0
     (mkOrder none [item1 1]) (by decide) rfl (by decide)).2.1⟩

/-! ### Claim C8 -/

theorem find_nearest_orders_mem {C D : Type} [LinearOrder D] [OrderTop D]
    (calcDist : Option C → Option C → Option C → Option C → D)
    (geocode : ShipAddr C → Option (C × C))
    {db : DB C} {oid : Nat} {x : Order C} (limit : Nat)
    (hx : x ∈ db.orders) (hne : x.id ≠ oid) :
    x ∈ (find_nearest_eligible_sellers calcDist geocode db oid limit).1.orders := by
  unfold find_nearest_eligible_sellers
  rcases hfind : findOrder db oid with _ | o
  · exact hx
  dsimp only []
  rcases haddr : o.shipping_address with _ | addr
  · exact hx
  dsimp only []
  rcases hlat : addr.latitude with _ | la <;>
    rcases hlon : addr.longitude with _ | lo <;>
    rcases hg : geocode addr with _ | ⟨gla, glo⟩ <;>
    try dsimp only []
  all_goals try exact hx
  all_goals refine mem_setOrder_of_ne hx ?_
  all_goals exact fun h => hne ((show x.id = o.id from h).trans (findOrder_some_id hfind))

theorem assign_orders_mem {C D : Type} [LinearOrder D] [OrderTop D]
    (calcDist : Option C → Option C → Option C → Option C → D)
    (geocode : ShipAddr C → Option (C × C)) (chinaLat chinaLon : C)
    {db : DB C} {oid : Nat} {x : Order C} (now : Int)
    (hx : x ∈ db.orders) (hne : x.id ≠ oid) :
    x ∈ (assign_order calcDist geocode chinaLat chinaLon db oid now).2.orders := by
  unfold assign_order
  rcases hfind : findOrder db oid with _ | o
  · exact hx
  dsimp only []
  by_cases hguard : o.assignment_status = some "accepted" ∨
      o.assignment_status = some "shipped"
  · rw [if_pos hguard]; exact hx
  rw [if_neg hguard]
  obtain ⟨-, -, -, -, ⟨o1, ho1, hido1, -, -, -, -, -⟩, -, -⟩ :=
    find_nearest_state calcDist geocode 20 hfind
  have hx1 : x ∈ (find_nearest_eligible_sellers calcDist geocode db oid 20).1.orders :=
    find_nearest_orders_mem calcDist geocode 20 hx hne
  have hne1 : x.id ≠ o1.id := by
    rw [hido1]
    exact fun h => hne (h.trans (findOrder_some_id hfind))
  rw [ho1]
  simp only [Option.getD_some]
  by_cases hidx : o1.assignment_attempts <
      (find_nearest_eligible_sellers calcDist geocode db oid 20).2.length
  · rw [dif_pos hidx]
    by_cases hch : chinaCloser calcDist chinaLat chinaLon o1
        ((find_nearest_eligible_sellers calcDist geocode db oid 20).2.get
          ⟨o1.assignment_attempts, hidx⟩).2 = true
    · rw [if_pos hch]
      show x ∈ (fallback_to_admin _ o1).2.orders
      unfold fallback_to_admin
      dsimp only []
      rw [commitAdminDeduction_orders]
      exact mem_setOrder_of_ne hx1 hne1
    · rw [if_neg hch]
      dsimp only []
      exact mem_setOrder_of_ne hx1 hne1
  · rw [dif_neg hidx]
    show x ∈ (fallback_to_admin _ o1).2.orders
    unfold fallback_to_admin
    dsimp only []
    rw [commitAdminDeduction_orders]
    exact mem_setOrder_of_ne hx1 hne1

theorem sweepOne_mem_other {C D : Type} [LinearOrder D] [OrderTop D]
    (calcDist : Option C → Option C → Option C → Option C → D)
    (geocode : ShipAddr C → Option (C × C)) (chinaLat chinaLon : C)
    (now : Int) {db : DB C} {oid : Nat} {x : Order C}
    (hx : x ∈ db.orders) (hne : x.id ≠ oid) :
    x ∈ (sweepOne calcDist geocode chinaLat chinaLon now db oid).orders := by
  unfold sweepOne
  rcases hfind : findOrder db oid with _ | o
  · exact hx
  dsimp only []
  rcases hsel : o.assigned_seller_id with _ | sid
  · exact hx
  dsimp only []
  refine assign_orders_mem calcDist geocode chinaLat chinaLon now ?_ hne
  refine mem_setOrder_of_ne hx ?_
  exact fun h => hne ((show x.id = o.id from h).trans (findOrder_some_id hfind))

theorem foldl_sweepOne_mem {C D : Type} [LinearOrder D] [OrderTop D]
    (calcDist : Option C → Option C → Option C → Option C → D)
    (geocode : ShipAddr C → Option (C × C)) (chinaLat chinaLon : C)
    (now : Int) (ids : List Nat) :
    ∀ (db' : DB C) (x : Order C), x ∈ db'.orders → (∀ i ∈ ids, x.id ≠ i) →
      x ∈ (ids.foldl (sweepOne calcDist geocode chinaLat chinaLon now) db').orders := by
  induction ids with
  | nil => exact fun db' x hx _ => hx
  | cons i rest ih =>
    intro db' x hx hni
    rw [List.foldl_cons]
    exact ih _ x
      (sweepOne_mem_other calcDist geocode chinaLat chinaLon now hx
        (hni i (List.mem_cons_self _ _)))
      (fun j hj => hni j (List.mem_cons_of_mem _ hj))

/-- C8 (modelled from the spec, see `sweepOne` and `expiry_sweep`): the
sweep's per-order step on an assigned order is exactly the state effect of
the reject endpoint invoked by the assigned seller (release + clear +
reassign), and orders not selected by the query
`status = assigned AND assignmentExpiry < now` survive the whole sweep
untouched — each selected order is handled by its own independent step. -/
theorem expiry_sweeper_spec {C D : Type} [LinearOrder D] [OrderTop D]
    (calcDist : Option C → Option C → Option C → Option C → D)
    (geocode : ShipAddr C → Option (C × C)) (chinaLat chinaLon : C) :
    (∀ (db : DB C) (now : Int) (oid pid : Nat) (o : Order C),
      findOrder db oid = some o → o.assigned_seller_id = some pid →
      sweepOne calcDist geocode chinaLat chinaLon now db oid =
        (reject_order calcDist geocode chinaLat chinaLon db pid oid now).2) ∧
    (∀ (db : DB C) (now : Int) (x : Order C),
      (db.orders.map (fun o => o.id)).Nodup → x ∈ db.orders →
      expiredNow x now = false →
      x ∈ (expiry_sweep calcDist geocode chinaLat chinaLon db now).orders) := by
  constructor
  · intro db now oid pid o hfind hsel
    unfold sweepOne reject_order
    rw [hfind]
    dsimp only []
    rw [hsel, if_pos rfl]
  · intro db now x hnodup hx hexp
    unfold expiry_sweep
    refine foldl_sweepOne_mem calcDist geocode chinaLat chinaLon now _ db x hx ?_
    intro i hi
    rcases List.mem_map.mp hi with ⟨y, hy, rfl⟩
    have hyy := List.mem_filter.mp hy
    intro h
    have hxy : x = y := List.inj_on_of_nodup_map hnodup hx hyy.1 h
    rw [hxy, hyy.2] at hexp
    exact absurd hexp (by simp)

/-- Witness for C8 on a concrete state with one expired assigned order and
one fresh order. -/
theorem expiry_sweeper_witness :
    findOrder dbExpired 1 = some ordExpired ∧
    ordExpired.assigned_seller_id = some 1 ∧
    sweepOne noDist noGeo 7 7 30 dbExpired 1 =
      (reject_order noDist noGeo 7 7 dbExpired 1 1 30).2 ∧
    (dbExpired.orders.map (fun o => o.id)).Nodup ∧
    ordOther ∈ dbExpired.orders ∧ expiredNow ordOther 30 = false ∧
    ordOther ∈ (expiry_sweep noDist noGeo 7 7 dbExpired 30).orders :=
  ⟨by decide, by decide,
   (expiry_sweeper_spec noDist noGeo 7 7).1 dbExpired 30 1 1 ordExpired
     (by decide) (by decide),
   by decide, by decide, by decide,
   (expiry_sweeper_spec noDist noGeo 7 7).2 dbExpired 30 ordOther
     (by decide) (by decide) (by decide)⟩

end NOVA
